import Mathlib

/-!
# hgl::SQLite3 wrapper: prepared statement, cursor, row reader, SQL builders

A shallow embedding of `include/sqlite3w.h`, `src/stmt.cc` and `src/db.cc`.

The SQL engine is an external collaborator.  It is represented by a record of
functions over an arbitrary engine state `σ` (`Engine σ`); every call the
wrapper makes through the engine's C surface is appended to a call journal kept
next to the statement state, so that "how many times was the engine stepped"
is a statement about a value.
-/

namespace hgl

/-! ## Engine call surface -/

/-- Result code `SQLITE_OK` of sqlite3.h. -/
def SQLITE_OK : Int := 0
/-- Result code `SQLITE_BUSY` of sqlite3.h. -/
def SQLITE_BUSY : Int := 5
/-- Result code `SQLITE_ROW` of sqlite3.h. -/
def SQLITE_ROW : Int := 100
/-- Result code `SQLITE_DONE` of sqlite3.h. -/
def SQLITE_DONE : Int := 101

/-- One call through the engine's statement-level C surface. -/
inductive Call where
  | step
  | reset
  | bind_int64 (col : Int) (v : Int)
  | bind_double (col : Int) (bits : Nat)
  | column_count
  | column_text (col : Int)
  | column_blob (col : Int)
  deriving DecidableEq, Repr

/-- The engine as seen by the wrapper: `step` is `sqlite3_step`, `reset` is
`sqlite3_reset` (its return code is discarded by the wrapper), `bind_int64` and
`bind_double` are the two numeric binders (a double is carried as its bit
pattern), `column_count`, `column_text`, `column_blob` are the column accessors
(`none` is the null pointer, `some a` the engine-owned address `a`), `errcode`
and `errmsg` are the last-error lookups of the connection. -/
structure Engine (σ : Type) where
  step : σ → Int × σ
  reset : σ → σ
  bind_int64 : σ → Int → Int → Int × σ
  bind_double : σ → Int → Nat → Int × σ
  column_count : σ → Int
  column_text : σ → Int → Option Nat
  column_blob : σ → Int → Option Nat
  errcode : σ → Int
  errmsg : σ → String

/-- Exception value `hgl::SQLite3Error`: an engine code and an owned copy of
the message. -/
structure SQLite3Error where
  code : Int
  msg : String
  deriving DecidableEq, Repr

/-- State of one `hgl::SQLite3Stmt`: `handle` is the engine state behind the
`sqlite3_stmt*` (and its connection), `occupied` the member of that name, and
`calls` the journal of engine calls issued so far, oldest first. -/
structure SQLite3Stmt (σ : Type) where
  handle : σ
  occupied : Bool
  calls : List Call

variable {σ : Type}

/-- Constructor `SQLite3Error(const SQLite3 & db)`: reads the connection's last
error code and message. -/
def SQLite3Error.ofDatabase (E : Engine σ) (s : SQLite3Stmt σ) : SQLite3Error :=
  { code := E.errcode s.handle, msg := E.errmsg s.handle }

namespace SQLite3Stmt

/-- Conversion `SQLite3Stmt::operator bool`: `return !occupied;`. -/
def operatorBool (s : SQLite3Stmt σ) : Bool := !s.occupied

/-- The call `sqlite3_step(handle)`: the engine answers a code and moves on. -/
def sqlite3_step (E : Engine σ) (s : SQLite3Stmt σ) : Int × SQLite3Stmt σ :=
  ((E.step s.handle).1,
   { s with handle := (E.step s.handle).2, calls := s.calls ++ [Call.step] })

/-- The labelled loop of `SQLite3Stmt::_step` from `_L_START` on, entered with
the current value of `retry_cnt`.  The 250 ms sleep has no effect on the state. -/
def stepLoop (E : Engine σ) (retry_cnt : Nat) (s : SQLite3Stmt σ) :
    Except SQLite3Error Bool × SQLite3Stmt σ :=
  let r := sqlite3_step E s
  if r.1 = SQLITE_BUSY then
    if retry_cnt + 1 < 16 then stepLoop E (retry_cnt + 1) r.2
    else (Except.error (SQLite3Error.ofDatabase E r.2), r.2)
  else if r.1 = SQLITE_ROW then (Except.ok true, r.2)
  else if r.1 = SQLITE_DONE then (Except.ok false, r.2)
  else (Except.error (SQLite3Error.ofDatabase E r.2), r.2)
termination_by 16 - retry_cnt

/-- Member `SQLite3Stmt::_step`: `if (!*this) return false;` then the retry
loop with `retry_cnt = 0`. -/
def _step (E : Engine σ) (s : SQLite3Stmt σ) :
    Except SQLite3Error Bool × SQLite3Stmt σ :=
  if !s.operatorBool then (Except.ok false, s) else stepLoop E 0 s

/-- Member `SQLite3Stmt::reset`: `occupied = false;` then `sqlite3_reset`,
whose return code is discarded. -/
def reset (E : Engine σ) (s : SQLite3Stmt σ) : SQLite3Stmt σ :=
  { handle := E.reset s.handle, occupied := false, calls := s.calls ++ [Call.reset] }

/-- The call `sqlite3_bind_int64(handle, col, v)`. -/
def sqlite3_bind_int64 (E : Engine σ) (s : SQLite3Stmt σ) (col v : Int) :
    Int × SQLite3Stmt σ :=
  ((E.bind_int64 s.handle col v).1,
   { s with handle := (E.bind_int64 s.handle col v).2,
            calls := s.calls ++ [Call.bind_int64 col v] })

/-- The call `sqlite3_bind_double(handle, col, v)`. -/
def sqlite3_bind_double (E : Engine σ) (s : SQLite3Stmt σ) (col : Int) (bits : Nat) :
    Int × SQLite3Stmt σ :=
  ((E.bind_double s.handle col bits).1,
   { s with handle := (E.bind_double s.handle col bits).2,
            calls := s.calls ++ [Call.bind_double col bits] })

/-- Member `SQLite3Stmt::bindInteger`: throws when the engine does not answer
`SQLITE_OK`. -/
def bindInteger (E : Engine σ) (col v : Int) (s : SQLite3Stmt σ) :
    Except SQLite3Error Unit × SQLite3Stmt σ :=
  let r := sqlite3_bind_int64 E s col v
  if r.1 ≠ SQLITE_OK then (Except.error (SQLite3Error.ofDatabase E r.2), r.2)
  else (Except.ok (), r.2)

/-- Member `SQLite3Stmt::bindFloat`: throws when the engine does not answer
`SQLITE_OK`. -/
def bindFloat (E : Engine σ) (col : Int) (bits : Nat) (s : SQLite3Stmt σ) :
    Except SQLite3Error Unit × SQLite3Stmt σ :=
  let r := sqlite3_bind_double E s col bits
  if r.1 ≠ SQLITE_OK then (Except.error (SQLite3Error.ofDatabase E r.2), r.2)
  else (Except.ok (), r.2)

end SQLite3Stmt

/-- The floating-point types of the host. -/
inductive FloatKind where
  | float
  | double
  | longDouble
  deriving DecidableEq, Repr

/-- An argument of a floating-point type: its type and its bit pattern in that
type. -/
structure HostFloat where
  kind : FloatKind
  bits : Nat
  deriving DecidableEq, Repr

/-- A value of the parameter pack of `operator()` for which `_bind_val`
compiles: `integral v` is an argument of an integral type whose value is `v`
(the type may be unsigned, so `v` may exceed `INT64_MAX`), `floating x` an
argument of a floating-point type.  The `const char*` branch of `_bind_val`
calls `bindText(val)` with one argument and is rejected by the compiler, so
text is not a member. -/
inductive HostVal where
  | integral (v : Int)
  | floating (x : HostFloat)
  deriving DecidableEq, Repr

/-- The implicit conversion of an integral argument to the parameter type
`std::int64_t` of `bindInteger`: the value modulo `2^64` that lies in the
signed range (what the compilers do, and the rule of the language from C++20
on). -/
def toInt64 (v : Int) : Int := (v + 2 ^ 63) % 2 ^ 64 - 2 ^ 63

/-- The implicit conversion of a floating-point argument to the parameter type
`double` of `bindFloat`, as the 64-bit pattern of the result: a `double` is
passed as it is; what the implementation makes of a `float` or of a
`long double` (widening, rounding) is not computed here but taken as the
parameter `D`. -/
def toDouble (D : HostFloat → Nat) (x : HostFloat) : Nat :=
  match x.kind with
  | FloatKind.double => x.bits % 2 ^ 64
  | FloatKind.float => D x % 2 ^ 64
  | FloatKind.longDouble => D x % 2 ^ 64

namespace SQLite3Stmt

/-- Template `SQLite3Stmt::_bind_val`: the `if constexpr` dispatch on the type
of `val`; the call of `bindInteger(int, std::int64_t)` or of
`bindFloat(int, double)` converts `val` to the parameter type. -/
def _bind_val (E : Engine σ) (D : HostFloat → Nat) (col : Int) (val : HostVal)
    (s : SQLite3Stmt σ) : Except SQLite3Error Unit × SQLite3Stmt σ :=
  match val with
  | HostVal.integral v => bindInteger E col (toInt64 v) s
  | HostVal.floating x => bindFloat E col (toDouble D x) s

/-- The fold expression `(_bind_val(++i, vals), ...)` of `operator()`, entered
with the current value of `i`: left to right, each element evaluated after
incrementing `i`; a throwing bind abandons the rest. -/
def bindPack (E : Engine σ) (D : HostFloat → Nat) : Int → List HostVal → SQLite3Stmt σ →
    Except SQLite3Error Unit × SQLite3Stmt σ
  | _, [], s => (Except.ok (), s)
  | i, val :: vals, s =>
    match _bind_val E D (i + 1) val s with
    | (Except.ok _, s1) => bindPack E D (i + 1) vals s1
    | (Except.error e, s1) => (Except.error e, s1)

/-- Template `SQLite3Stmt::operator()`:
`int i = 0; (_bind_val(++i, vals), ...); return _step();`. -/
def operatorCall (E : Engine σ) (D : HostFloat → Nat) (vals : List HostVal)
    (s : SQLite3Stmt σ) :
    Except SQLite3Error Bool × SQLite3Stmt σ :=
  match bindPack E D 0 vals s with
  | (Except.ok _, s1) => _step E s1
  | (Except.error e, s1) => (Except.error e, s1)

end SQLite3Stmt

/-! ## Cursor and row reader -/

/-- A nullable pointer whose only possible target is the object under study:
`Cursor::stmt` (to the statement) and `RowReader::cur` (to the cursor that
embeds the reader). -/
inductive Ref where
  | null
  | obj
  deriving DecidableEq, Repr

/-- Struct `SQLite3Stmt::RowReader`: the member `cur`. -/
structure RowReader where
  cur : Ref
  deriving DecidableEq, Repr

/-- Struct `SQLite3Stmt::Cursor`: the members `stmt` and `reader`. -/
structure Cursor where
  stmt : Ref
  reader : RowReader
  deriving DecidableEq, Repr

/-- A `const char*` or `const void*` handed back by the row reader: the null
pointer, the address of a string literal of the wrapper (with its contents),
or an address owned by the engine. -/
inductive CPtr where
  | null
  | literal (contents : String)
  | engine (addr : Nat)
  deriving DecidableEq, Repr

namespace Cursor

/-- Constructor `Cursor(): stmt(nullptr), reader(nullptr)`. -/
def default : Cursor := { stmt := Ref.null, reader := { cur := Ref.null } }

/-- Constructor `Cursor(SQLite3Stmt * s): stmt(s), reader(this)`, for a non-null
`s`.  Nothing else happens: the statement is not written to. -/
def ofStmt : Cursor := { stmt := Ref.obj, reader := { cur := Ref.obj } }

/-- Conversion `Cursor::operator bool`: `return stmt != nullptr;`. -/
def operatorBool (c : Cursor) : Bool := decide (c.stmt ≠ Ref.null)

/-- Member `Cursor::release`: `stmt->reset(); stmt = nullptr;`.  `none` is the
dereference of a null `stmt`. -/
def release (E : Engine σ) (c : Cursor) (s : SQLite3Stmt σ) :
    Option (Cursor × SQLite3Stmt σ) :=
  match c.stmt with
  | Ref.null => none
  | Ref.obj => some ({ c with stmt := Ref.null }, SQLite3Stmt.reset E s)

/-- Destructor `~Cursor`: `if (*this) release();`. -/
def destroy (E : Engine σ) (c : Cursor) (s : SQLite3Stmt σ) :
    Option (Cursor × SQLite3Stmt σ) :=
  if c.operatorBool then release E c s else some (c, s)

/-- Member `Cursor::operator++`: `if (!stmt->_step()) release(); return *this;`.
`none` is the dereference of a null `stmt`; an exception of `_step` leaves the
cursor as it was. -/
def operatorInc (E : Engine σ) (c : Cursor) (s : SQLite3Stmt σ) :
    Option (Except SQLite3Error Unit × Cursor × SQLite3Stmt σ) :=
  match c.stmt with
  | Ref.null => none
  | Ref.obj =>
    match SQLite3Stmt._step E s with
    | (Except.error e, s1) => some (Except.error e, c, s1)
    | (Except.ok true, s1) => some (Except.ok (), c, s1)
    | (Except.ok false, s1) =>
      match release E c s1 with
      | none => none
      | some (c2, s2) => some (Except.ok (), c2, s2)

end Cursor

namespace SQLite3Stmt

/-- Member `SQLite3Stmt::begin`: `return Cursor(this);`. -/
def begin (_s : SQLite3Stmt σ) : Cursor := Cursor.ofStmt

/-- Member `SQLite3Stmt::end`: `return Cursor();`. -/
def end_ (_s : SQLite3Stmt σ) : Cursor := Cursor.default

end SQLite3Stmt

namespace RowReader

/-- Conversion `RowReader::operator bool`: `return cur != nullptr;`. -/
def operatorBool (r : RowReader) : Bool := decide (r.cur ≠ Ref.null)

/-- Conversion of the engine's `int` to `std::size_t` (64 bits). -/
def toSizeT (x : Int) : Nat := (x % 2 ^ 64).toNat

/-- Member `RowReader::size`, for a reader whose `cur`, when not null, points to
the cursor `c`:
`(*this) ? sqlite3_column_count(this->cur->stmt->handle) : 0`.
`none` is the dereference of a null `cur->stmt`. -/
def size (E : Engine σ) (r : RowReader) (c : Cursor) (s : SQLite3Stmt σ) :
    Option (Nat × SQLite3Stmt σ) :=
  if r.operatorBool then
    match c.stmt with
    | Ref.null => none
    | Ref.obj =>
      some (toSizeT (E.column_count s.handle),
            { s with calls := s.calls ++ [Call.column_count] })
  else some (0, s)

/-- Member `RowReader::readText`, for a reader whose `cur`, when not null,
points to the cursor `c`: the handle is reached through `this->cur->stmt`
(`none` when either pointer is null), then
`(val == nullptr) ? "" : reinterpret_cast<const char *>(val)`. -/
def readText (E : Engine σ) (r : RowReader) (c : Cursor) (col : Int)
    (s : SQLite3Stmt σ) : Option (CPtr × SQLite3Stmt σ) :=
  match r.cur with
  | Ref.null => none
  | Ref.obj =>
    match c.stmt with
    | Ref.null => none
    | Ref.obj =>
      let val := E.column_text s.handle col
      some ((match val with
             | none => CPtr.literal ""
             | some a => CPtr.engine a),
            { s with calls := s.calls ++ [Call.column_text col] })

/-- Member `RowReader::readBlob`, for a reader whose `cur`, when not null,
points to the cursor `c`: the handle is reached through `this->cur->stmt`
(`none` when either pointer is null), then `(val == nullptr) ? "" : val`. -/
def readBlob (E : Engine σ) (r : RowReader) (c : Cursor) (col : Int)
    (s : SQLite3Stmt σ) : Option (CPtr × SQLite3Stmt σ) :=
  match r.cur with
  | Ref.null => none
  | Ref.obj =>
    match c.stmt with
    | Ref.null => none
    | Ref.obj =>
      let val := E.column_blob s.handle col
      some ((match val with
             | none => CPtr.literal ""
             | some a => CPtr.engine a),
            { s with calls := s.calls ++ [Call.column_blob col] })

end RowReader

/-- The loop `while (c) { visit(*c); ++c; }` that a range-for over a statement
runs after `c = begin()`, with `acc` the rows visited so far.  A visit reads the
current row through the reader (`row` is what it sees of the engine state), so
it needs `reader.cur` and `stmt` non-null.  The result is `none` when the fuel
is used up or a null pointer is dereferenced; an exception of `operator++`
leaves the loop at once, the cursor being as it was. -/
def rangeFor {ρ : Type} (E : Engine σ) (row : σ → ρ) :
    Nat → Cursor → SQLite3Stmt σ → List ρ →
    Option (Except SQLite3Error (List ρ) × Cursor × SQLite3Stmt σ)
  | 0, _, _, _ => none
  | fuel + 1, c, s, acc =>
    if c.operatorBool then
      match c.reader.cur with
      | Ref.null => none
      | Ref.obj =>
        match c.operatorInc E s with
        | none => none
        | some (Except.error e, c1, s1) => some (Except.error e, c1, s1)
        | some (Except.ok _, c1, s1) => rangeFor E row fuel c1 s1 (acc ++ [row s.handle])
    else some (Except.ok acc, c, s)

/-! ## SQL builders of `db.cc`

A `const char*` argument is the list of characters found at the pointer; the
C string it denotes ends before the first NUL (or at the end of the list). -/

/-- Constant `bufsize` of db.cc: the size of the allocation behind `buffer`. -/
def bufsize : Nat := 1024

/-- The terminator of C strings. -/
def NUL : Char := Char.ofNat 0

/-- The characters of the C string at `str`: those before the first NUL. -/
def cstr (str : List Char) : List Char := str.takeWhile (fun ch => ch != NUL)

/-- Function `std::strlen`. -/
def strlen (str : List Char) : Nat := (cstr str).length

/-- The scratch buffer while a builder runs: `mem` is the contents of the
allocation behind `buffer`, `p` the offset of the local `char * p` from
`buffer`, `stores` the offsets (from `buffer`) of the bytes stored so far, in
order.  A store outside the allocation is recorded and leaves `mem` alone. -/
structure Scratch where
  mem : List Char
  p : Nat
  stores : List Nat
  deriving DecidableEq, Repr

/-- One byte store `buffer[off] = ch`. -/
def storeByte (w : Scratch) (off : Nat) (ch : Char) : Scratch :=
  { w with mem := w.mem.set off ch, stores := w.stores ++ [off] }

/-- Function `std::memcpy(buffer + dst, src, src.length)`, byte by byte. -/
def memcpy (w : Scratch) (dst : Nat) : List Char → Scratch
  | [] => w
  | ch :: rest => memcpy (storeByte w dst ch) (dst + 1) rest

/-- Array `_text_select`. -/
def _text_select : List Char := "SELECT ".toList
/-- Array `_text_update`. -/
def _text_update : List Char := "UPDATE ".toList
/-- Array `_text_from`. -/
def _text_from : List Char := " FROM ".toList
/-- Array `_text_set`. -/
def _text_set : List Char := " SET ".toList
/-- Array `_text_where`. -/
def _text_where : List Char := " WHERE ".toList

/-- Macro `PUT_PTEXT(PTR, TEXT)`: `memcpy(p, _text_TEXT, sizeof(_text_TEXT) - 1);
p += sizeof(_text_TEXT) - 1;` with `text` the array without its terminator. -/
def PUT_PTEXT (w : Scratch) (text : List Char) : Scratch :=
  { memcpy w w.p text with p := w.p + text.length }

/-- Macro `PUT_CSTR(PTR, STR)`:
`_len = strlen(STR); memcpy(PTR, STR, _len); PTR += _len;`. -/
def PUT_CSTR (w : Scratch) (str : List Char) : Scratch :=
  let _len := strlen str
  { memcpy w w.p (str.take _len) with p := w.p + _len }

/-- Macro `PUT_CHAR(PTR, CH)`: `*(PTR++) = (CH)`. -/
def PUT_CHAR (w : Scratch) (ch : Char) : Scratch :=
  { storeByte w w.p ch with p := w.p + 1 }

/-- Macro `PUT_END(PTR)`: `PUT_CHAR(PTR, ';'); *PTR = 0;`. -/
def PUT_END (w : Scratch) : Scratch :=
  let w1 := PUT_CHAR w ';'
  storeByte w1 w1.p NUL

/-- The buffer when a builder starts: `char * p = this->buffer;`. -/
def Scratch.start (buffer : List Char) : Scratch :=
  { mem := buffer, p := 0, stores := [] }

/-- Member `SQLite3::makeSelect` up to its `return`: the scratch buffer after
`PUT_END`.  A null `names` or `where` is `none`. -/
def makeSelect (buffer table : List Char) (names where_ : Option (List Char)) : Scratch :=
  let p1 := PUT_PTEXT (Scratch.start buffer) _text_select
  let p2 :=
    match names with
    | none => PUT_CHAR p1 '*'
    | some n => PUT_CSTR p1 n
  let p3 := PUT_CSTR (PUT_PTEXT p2 _text_from) table
  let p4 :=
    match where_ with
    | some w => PUT_CSTR (PUT_PTEXT p3 _text_where) w
    | none => p3
  PUT_END p4

/-- The loop `for (auto & [name, val]: name_vals)` of `makeUpdate`:
`PUT_CSTR(p, name); PUT_CHAR(p, '='); PUT_CSTR(p, val);`. -/
def putNameVals : Scratch → List (List Char × List Char) → Scratch
  | w, [] => w
  | w, (name, val) :: rest =>
    putNameVals (PUT_CSTR (PUT_CHAR (PUT_CSTR w name) '=') val) rest

/-- Member `SQLite3::makeUpdate` up to its `return`: the scratch buffer after
`PUT_END`. -/
def makeUpdate (buffer table : List Char) (name_vals : List (List Char × List Char))
    (where_ : List Char) : Scratch :=
  let p1 := PUT_CSTR (PUT_PTEXT (Scratch.start buffer) _text_update) table
  let p2 := PUT_PTEXT p1 _text_set
  let p3 := putNameVals p2 name_vals
  PUT_END (PUT_CSTR (PUT_PTEXT p3 _text_where) where_)

/-- The statement text that `return SQLite3Stmt(*this, this->buffer);` compiles:
`sqlite3_prepare_v2` is called with length `-1` and reads the buffer up to the
first NUL.  `none` when a store fell outside the `bufsize` bytes of the
allocation: the behaviour is then undefined. -/
def compiledText (w : Scratch) : Option (List Char) :=
  if w.stores.all (fun off => decide (off < bufsize)) then some (cstr w.mem) else none

/-- The text of a SELECT statement in the words of the specification. -/
def selectText (table : List Char) (names where_ : Option (List Char)) : List Char :=
  "SELECT ".toList ++ names.getD "*".toList ++ " FROM ".toList ++ table ++
    (match where_ with
     | some w => " WHERE ".toList ++ w
     | none => []) ++ ";".toList

/-- The text of an UPDATE statement in the words of the specification: the
assignments `name=value` follow each other with nothing in between. -/
def updateText (table : List Char) (name_vals : List (List Char × List Char))
    (where_ : List Char) : List Char :=
  "UPDATE ".toList ++ table ++ " SET ".toList ++
    (name_vals.map (fun nv => nv.1 ++ "=".toList ++ nv.2)).flatten ++
    " WHERE ".toList ++ where_ ++ ";".toList

/-- The bytes of `t` have been stored at the offsets `0, 1, ...` in this order
and nothing else has; when `t` fits the allocation it is what the allocation
starts with, the rest being as it was in `buffer`. -/
def Filled (buffer t : List Char) (w : Scratch) : Prop :=
  w.stores = List.range t.length ∧
    (t.length ≤ buffer.length → w.mem = t ++ buffer.drop t.length)

/-! ## Engine behaviour, as a hypothesis language -/

/-- Engine state after `i` consecutive `sqlite3_step` calls from `h`. -/
def afterSteps (E : Engine σ) : Nat → σ → σ
  | 0, h => h
  | i + 1, h => afterSteps E i (E.step h).2

/-- Code the engine answers to the `(i+1)`-th consecutive step call from `h`. -/
def stepCode (E : Engine σ) (h : σ) (i : Nat) : Int :=
  (E.step (afterSteps E i h)).1

/-- The statement after `n` consecutive engine step calls and nothing else. -/
def stepped (E : Engine σ) (n : Nat) (s : SQLite3Stmt σ) : SQLite3Stmt σ :=
  { s with handle := afterSteps E n s.handle,
           calls := s.calls ++ List.replicate n Call.step }

/-- What `_step` makes of a code that is not `SQLITE_BUSY`, in state `s`. -/
def stepAnswer (E : Engine σ) (code : Int) (s : SQLite3Stmt σ) :
    Except SQLite3Error Bool × SQLite3Stmt σ :=
  if code = SQLITE_ROW then (Except.ok true, s)
  else if code = SQLITE_DONE then (Except.ok false, s)
  else (Except.error (SQLite3Error.ofDatabase E s), s)

/-- Engine-level effect of binding `val`, converted to the engine's type, at
index `col`. -/
def engBind (E : Engine σ) (D : HostFloat → Nat) (h : σ) (col : Int) (val : HostVal) :
    Int × σ :=
  match val with
  | HostVal.integral v => E.bind_int64 h col (toInt64 v)
  | HostVal.floating x => E.bind_double h col (toDouble D x)

/-- Journal entry of the engine bind call for `val`, converted to the engine's
type, at index `col`. -/
def bindCall (D : HostFloat → Nat) (col : Int) (val : HostVal) : Call :=
  match val with
  | HostVal.integral v => Call.bind_int64 col (toInt64 v)
  | HostVal.floating x => Call.bind_double col (toDouble D x)

/-- Engine state after binding `vals` at the indices `i + 1`, `i + 2`, ... -/
def afterBinds (E : Engine σ) (D : HostFloat → Nat) : Nat → List HostVal → σ → σ
  | _, [], h => h
  | i, val :: vals, h => afterBinds E D (i + 1) vals (engBind E D h ((i : Int) + 1) val).2

/-- Whether the engine answers `SQLITE_OK` to each bind of `vals` at the
indices `i + 1`, `i + 2`, ..., issued in that order from `h`. -/
def bindsAccepted (E : Engine σ) (D : HostFloat → Nat) : Nat → List HostVal → σ → Bool
  | _, [], _ => true
  | i, val :: vals, h =>
    decide ((engBind E D h ((i : Int) + 1) val).1 = SQLITE_OK) &&
      bindsAccepted E D (i + 1) vals (engBind E D h ((i : Int) + 1) val).2

/-- The bind calls for `vals`: the value at (zero-based) position `j` of the
list is bound at index `j + 1`. -/
def bindCalls (D : HostFloat → Nat) (vals : List HostVal) : List Call :=
  vals.enum.map (fun p => bindCall D ((p.1 : Int) + 1) p.2)

/-- The statement after every value of `vals` has been bound, and nothing else. -/
def bound (E : Engine σ) (D : HostFloat → Nat) (vals : List HostVal)
    (s : SQLite3Stmt σ) : SQLite3Stmt σ :=
  { s with handle := afterBinds E D 0 vals s.handle,
           calls := s.calls ++ bindCalls D vals }

/-! ## A scripted mock engine -/

/-- Result code `SQLITE_RANGE` of sqlite3.h (bind index out of range). -/
def SQLITE_RANGE : Int := 25

/-- State of the scripted mock: `script` holds the answers to the coming step
calls (an exhausted script answers `SQLITE_DONE`), `produced` counts the rows
handed out so far, a bind at index `rejectCol` is answered `SQLITE_RANGE`,
`columns` holds the text/blob pointer of each column of the current row. -/
structure Mock where
  script : List Int
  produced : Nat
  rejectCol : Option Int
  columns : List (Option Nat)
  deriving DecidableEq, Repr

/-- The scripted mock engine. -/
def mockEngine : Engine Mock where
  step m :=
    match m.script with
    | [] => (SQLITE_DONE, m)
    | c :: rest =>
      (c, { m with script := rest,
                   produced := if c = SQLITE_ROW then m.produced + 1 else m.produced })
  reset m := m
  bind_int64 m col _ := if m.rejectCol = some col then (SQLITE_RANGE, m) else (SQLITE_OK, m)
  bind_double m col _ := if m.rejectCol = some col then (SQLITE_RANGE, m) else (SQLITE_OK, m)
  column_count m := m.columns.length
  column_text m col := if 0 ≤ col then m.columns.getD col.toNat none else none
  column_blob m col := if 0 ≤ col then m.columns.getD col.toNat none else none
  errcode _ := SQLITE_BUSY
  errmsg _ := "database is locked"

/-- A conversion to `double` for the mock runs: the bit pattern is kept. -/
def mockToDouble : HostFloat → Nat := fun x => x.bits

/-- A freshly prepared statement over the mock with the given step script. -/
def mockStmt (script : List Int) : SQLite3Stmt Mock :=
  { handle := { script := script, produced := 0, rejectCol := none, columns := [] },
    occupied := false, calls := [] }

/-- A freshly prepared statement over a mock that rejects binds at index `col`. -/
def mockStmtRejecting (col : Int) (script : List Int) : SQLite3Stmt Mock :=
  { handle := { script := script, produced := 0, rejectCol := some col, columns := [] },
    occupied := false, calls := [] }

/-- The mock statement of script `[row, done]` once `operator()` has stepped
it to its only row: one row is pending. -/
def mockStmtAtRow : SQLite3Stmt Mock :=
  stepped mockEngine 1 (mockStmt [100, 101])

/-- A mock statement positioned on a row whose column 0 is absent (null
pointer) and whose column 1 lives at the engine address 4096. -/
def mockStmtNullColumn : SQLite3Stmt Mock :=
  { handle := { script := [101], produced := 1, rejectCol := none,
                columns := [none, some 4096] },
    occupied := false, calls := [Call.step] }

/-! ## Theorems -/

section StepLemmas

open SQLite3Stmt

theorem stepCode_zero (E : Engine σ) (h : σ) : stepCode E h 0 = (E.step h).1 := rfl

theorem stepCode_succ (E : Engine σ) (h : σ) (i : Nat) :
    stepCode E h (i + 1) = stepCode E (E.step h).2 i := rfl

theorem stepped_one (E : Engine σ) (s : SQLite3Stmt σ) :
    stepped E 1 s = (sqlite3_step E s).2 := rfl

theorem stepped_succ (E : Engine σ) (n : Nat) (s : SQLite3Stmt σ) :
    stepped E n (sqlite3_step E s).2 = stepped E (n + 1) s := by
  simp [stepped, sqlite3_step, afterSteps, List.replicate_succ]

/-- One pass through the loop when the engine does not answer busy. -/
theorem stepLoop_answer (E : Engine σ) (r : Nat) (s : SQLite3Stmt σ)
    (h : (E.step s.handle).1 ≠ SQLITE_BUSY) :
    stepLoop E r s = stepAnswer E (E.step s.handle).1 (sqlite3_step E s).2 := by
  rw [stepLoop]
  simp only [stepAnswer]
  have h1 : (sqlite3_step E s).1 = (E.step s.handle).1 := rfl
  simp [h1, h]

/-- One pass through the loop when the engine answers busy and a retry is left. -/
theorem stepLoop_retry (E : Engine σ) (r : Nat) (s : SQLite3Stmt σ)
    (h : (E.step s.handle).1 = SQLITE_BUSY) (hr : r + 1 < 16) :
    stepLoop E r s = stepLoop E (r + 1) (sqlite3_step E s).2 := by
  rw [stepLoop]
  have h1 : (sqlite3_step E s).1 = (E.step s.handle).1 := rfl
  simp [h1, h, hr]

/-- One pass through the loop when the engine answers busy for the last time. -/
theorem stepLoop_giveup (E : Engine σ) (r : Nat) (s : SQLite3Stmt σ)
    (h : (E.step s.handle).1 = SQLITE_BUSY) (hr : ¬ r + 1 < 16) :
    stepLoop E r s =
      (Except.error (SQLite3Error.ofDatabase E (sqlite3_step E s).2), (sqlite3_step E s).2) := by
  rw [stepLoop]
  have h1 : (sqlite3_step E s).1 = (E.step s.handle).1 := rfl
  simp [h1, h, hr]

/-- After `k` busy answers with retries to spare, the loop hands the next
answer to the caller, having stepped the engine `k + 1` times. -/
theorem stepLoop_busy_then (E : Engine σ) (k : Nat) :
    ∀ (r : Nat) (s : SQLite3Stmt σ), r + k < 16 →
      (∀ i, i < k → stepCode E s.handle i = SQLITE_BUSY) →
      stepCode E s.handle k ≠ SQLITE_BUSY →
      stepLoop E r s = stepAnswer E (stepCode E s.handle k) (stepped E (k + 1) s) := by
  induction k with
  | zero =>
    intro r s _ _ hk
    rw [stepCode_zero] at hk
    rw [stepLoop_answer E r s hk, stepCode_zero, stepped_one]
  | succ k ih =>
    intro r s hr hbusy hk
    have h0 : (E.step s.handle).1 = SQLITE_BUSY := by
      have := hbusy 0 (Nat.succ_pos k)
      rwa [stepCode_zero] at this
    rw [stepLoop_retry E r s h0 (by omega)]
    rw [ih (r + 1) (sqlite3_step E s).2 (by omega)
      (fun i hi => by
        have := hbusy (i + 1) (by omega)
        rwa [stepCode_succ] at this)
      (by rwa [stepCode_succ] at hk)]
    rw [stepped_succ]
    rfl

/-- When the engine stays busy, the loop gives up after the attempts that are
left: `m + 1` of them when entered with `retry_cnt = 15 - m`. -/
theorem stepLoop_busy_out (E : Engine σ) (m : Nat) :
    ∀ (r : Nat) (s : SQLite3Stmt σ), r + m = 15 →
      (∀ i, i < m + 1 → stepCode E s.handle i = SQLITE_BUSY) →
      stepLoop E r s =
        (Except.error (SQLite3Error.ofDatabase E (stepped E (m + 1) s)),
         stepped E (m + 1) s) := by
  induction m with
  | zero =>
    intro r s hr hbusy
    have h0 : (E.step s.handle).1 = SQLITE_BUSY := by
      have := hbusy 0 (by omega)
      rwa [stepCode_zero] at this
    rw [stepLoop_giveup E r s h0 (by omega), stepped_one]
  | succ m ih =>
    intro r s hr hbusy
    have h0 : (E.step s.handle).1 = SQLITE_BUSY := by
      have := hbusy 0 (by omega)
      rwa [stepCode_zero] at this
    rw [stepLoop_retry E r s h0 (by omega)]
    rw [ih (r + 1) (sqlite3_step E s).2 (by omega)
      (fun i hi => by
        have := hbusy (i + 1) (by omega)
        rwa [stepCode_succ] at this)]
    rw [stepped_succ]

theorem _step_free (E : Engine σ) (s : SQLite3Stmt σ) (h : s.occupied = false) :
    _step E s = stepLoop E 0 s := by
  simp [_step, operatorBool, h]

/-- On a free statement whose engine answers row or done at once, `_step`
makes exactly one engine call. -/
theorem step_first (E : Engine σ) (s : SQLite3Stmt σ) (hfree : s.occupied = false) :
    (stepCode E s.handle 0 = SQLITE_ROW →
      _step E s = (Except.ok true, (sqlite3_step E s).2)) ∧
    (stepCode E s.handle 0 = SQLITE_DONE →
      _step E s = (Except.ok false, (sqlite3_step E s).2)) := by
  rw [_step_free E s hfree, stepCode_zero]
  constructor
  · intro h
    rw [stepLoop_answer E 0 s (by rw [h]; decide), h]
    simp [stepAnswer]
  · intro h
    rw [stepLoop_answer E 0 s (by rw [h]; decide), h]
    have hne : SQLITE_DONE ≠ SQLITE_ROW := by decide
    simp [stepAnswer, hne]

end StepLemmas

/-- C1: over an engine whose step answers busy to the first `k` calls and row
or done to the next one, `_step` on a non-occupied statement returns normally
(true for row, false for done) after exactly `k + 1` engine step calls when
`k < 16`, and throws after exactly 16 engine step calls when `k ≥ 16`. -/
theorem step_busy_retry (E : Engine σ) (s : SQLite3Stmt σ) (k : Nat)
    (hfree : s.occupied = false)
    (hbusy : ∀ i, i < k → stepCode E s.handle i = SQLITE_BUSY)
    (hthen : stepCode E s.handle k = SQLITE_ROW ∨ stepCode E s.handle k = SQLITE_DONE) :
    (k < 16 →
      (SQLite3Stmt._step E s).1 = Except.ok (decide (stepCode E s.handle k = SQLITE_ROW)) ∧
      (SQLite3Stmt._step E s).2.calls = s.calls ++ List.replicate (k + 1) Call.step) ∧
    (16 ≤ k →
      (∃ e, (SQLite3Stmt._step E s).1 = Except.error e) ∧
      (SQLite3Stmt._step E s).2.calls = s.calls ++ List.replicate 16 Call.step) := by
  constructor
  · intro hk
    have hnb : stepCode E s.handle k ≠ SQLITE_BUSY := by
      rcases hthen with h | h <;> rw [h] <;> decide
    rw [_step_free E s hfree, stepLoop_busy_then E k 0 s (by omega) hbusy hnb]
    rcases hthen with h | h
    · simp [stepAnswer, h, stepped]
    · have hne : SQLITE_DONE ≠ SQLITE_ROW := by decide
      simp [stepAnswer, h, stepped, hne]
  · intro hk
    rw [_step_free E s hfree,
      stepLoop_busy_out E 15 0 s rfl (fun i hi => hbusy i (by omega))]
    exact ⟨⟨_, rfl⟩, rfl⟩

/-- Witness of C1: three busy answers then a row (four step calls, true), and
twenty busy answers then a row (sixteen step calls, an exception). -/
theorem step_busy_retry_witness :
    ((SQLite3Stmt._step mockEngine (mockStmt [5, 5, 5, 100])).1 = Except.ok true ∧
      (SQLite3Stmt._step mockEngine (mockStmt [5, 5, 5, 100])).2.calls =
        [Call.step, Call.step, Call.step, Call.step]) ∧
    ((∃ e, (SQLite3Stmt._step mockEngine (mockStmt (List.replicate 20 5 ++ [100]))).1
        = Except.error e) ∧
      (SQLite3Stmt._step mockEngine (mockStmt (List.replicate 20 5 ++ [100]))).2.calls =
        List.replicate 16 Call.step) := by
  have h1 := (step_busy_retry mockEngine (mockStmt [5, 5, 5, 100]) 3 rfl
    (by decide) (by decide)).1 (by decide)
  have h2 := (step_busy_retry mockEngine (mockStmt (List.replicate 20 5 ++ [100])) 20 rfl
    (by decide) (by decide)).2 (by decide)
  refine ⟨⟨?_, ?_⟩, h2⟩
  · rw [h1.1]; exact congrArg Except.ok (decide_eq_true (by decide))
  · rw [h1.2]; rfl

section BindLemmas

open SQLite3Stmt

theorem _bind_val_accepted (E : Engine σ) (D : HostFloat → Nat) (col : Int) (val : HostVal)
    (s : SQLite3Stmt σ)
    (h : (engBind E D s.handle col val).1 = SQLITE_OK) :
    _bind_val E D col val s =
      (Except.ok (), { s with handle := (engBind E D s.handle col val).2,
                              calls := s.calls ++ [bindCall D col val] }) := by
  cases val <;>
    simp_all [_bind_val, bindInteger, bindFloat, sqlite3_bind_int64, sqlite3_bind_double,
      engBind, bindCall]

theorem _bind_val_rejected (E : Engine σ) (D : HostFloat → Nat) (col : Int) (val : HostVal)
    (s : SQLite3Stmt σ)
    (h : (engBind E D s.handle col val).1 ≠ SQLITE_OK) :
    ∃ e, _bind_val E D col val s =
      (Except.error e, { s with handle := (engBind E D s.handle col val).2,
                                calls := s.calls ++ [bindCall D col val] }) := by
  cases val <;>
    simp_all [_bind_val, bindInteger, bindFloat, sqlite3_bind_int64, sqlite3_bind_double,
      engBind, bindCall]

/-- The fold over accepted binds: every value is bound, in order, at
consecutive indices. -/
theorem bindPack_accepted (E : Engine σ) (D : HostFloat → Nat) (vals : List HostVal) :
    ∀ (i : Nat) (s : SQLite3Stmt σ), bindsAccepted E D i vals s.handle = true →
      bindPack E D (i : Int) vals s =
        (Except.ok (),
         { s with handle := afterBinds E D i vals s.handle,
                  calls := s.calls ++
                    (vals.enumFrom i).map (fun p => bindCall D ((p.1 : Int) + 1) p.2) }) := by
  induction vals with
  | nil => intro i s _; simp [bindPack, afterBinds]
  | cons val vals ih =>
    intro i s h
    simp only [bindsAccepted, Bool.and_eq_true, decide_eq_true_eq] at h
    have hcast : ((i : Int) + 1) = ((i + 1 : Nat) : Int) := by push_cast; rfl
    simp only [bindPack]
    rw [_bind_val_accepted E D _ val s h.1]
    simp only
    rw [hcast, ih (i + 1) _ h.2]
    simp [afterBinds, List.enumFrom]

/-- The fold up to a rejected bind: the values before it are bound, the
rejected call is issued, and nothing after it. -/
theorem bindPack_rejected (E : Engine σ) (D : HostFloat → Nat) (pre : List HostVal) (val : HostVal)
    (post : List HostVal) :
    ∀ (i : Nat) (s : SQLite3Stmt σ), bindsAccepted E D i pre s.handle = true →
      (engBind E D (afterBinds E D i pre s.handle) (((i + pre.length : Nat) : Int) + 1) val).1
        ≠ SQLITE_OK →
      ∃ e s1, bindPack E D (i : Int) (pre ++ val :: post) s = (Except.error e, s1) ∧
        s1.calls = s.calls ++
          (pre.enumFrom i).map (fun p => bindCall D ((p.1 : Int) + 1) p.2) ++
          [bindCall D (((i + pre.length : Nat) : Int) + 1) val] ∧
        s1.occupied = s.occupied := by
  induction pre with
  | nil =>
    intro i s _ hrej
    simp only [afterBinds, List.length_nil, Nat.add_zero] at hrej
    obtain ⟨e, he⟩ := _bind_val_rejected E D _ val s hrej
    refine ⟨e, { s with handle := (engBind E D s.handle ((i : Int) + 1) val).2,
                        calls := s.calls ++ [bindCall D ((i : Int) + 1) val] }, ?_, ?_, ?_⟩
    · simp only [List.nil_append, bindPack, he]
    · simp
    · rfl
  | cons v pre ih =>
    intro i s h hrej
    simp only [bindsAccepted, Bool.and_eq_true, decide_eq_true_eq] at h
    have hcast : ((i : Int) + 1) = ((i + 1 : Nat) : Int) := by push_cast; rfl
    have hlen : i + (v :: pre).length = (i + 1) + pre.length := by
      simp only [List.length_cons]; omega
    rw [hlen] at hrej ⊢
    simp only [afterBinds] at hrej
    obtain ⟨e, s1, h1, h2, h3⟩ := ih (i + 1)
      { s with handle := (engBind E D s.handle ((i : Int) + 1) v).2,
               calls := s.calls ++ [bindCall D ((i : Int) + 1) v] }
      h.2 hrej
    refine ⟨e, s1, ?_, ?_, ?_⟩
    · simp only [List.cons_append, bindPack]
      rw [_bind_val_accepted E D _ v s h.1]
      simp only
      rw [hcast]
      rw [hcast] at h1
      exact h1
    · rw [h2]; simp [List.enumFrom]
    · rw [h3]

theorem bindCalls_eq_enumFrom (D : HostFloat → Nat) (vals : List HostVal) :
    bindCalls D vals = (vals.enumFrom 0).map (fun p => bindCall D ((p.1 : Int) + 1) p.2) := rfl

theorem operatorCall_accepted (E : Engine σ) (D : HostFloat → Nat) (vals : List HostVal)
    (s : SQLite3Stmt σ)
    (h : bindsAccepted E D 0 vals s.handle = true) :
    operatorCall E D vals s = _step E (bound E D vals s) := by
  have := bindPack_accepted E D vals 0 s h
  simp only [Nat.cast_zero] at this
  simp only [operatorCall, this]
  rfl

/-- A value that `std::int64_t` holds is converted to itself. -/
theorem toInt64_of_range (v : Int) (hlo : -(2 ^ 63) ≤ v) (hhi : v < 2 ^ 63) :
    toInt64 v = v := by
  unfold toInt64
  rw [Int.emod_eq_of_lt (by omega) (by omega)]
  omega

/-- A `double` is passed to `bindFloat` as it is. -/
theorem toDouble_of_double (D : HostFloat → Nat) (x : HostFloat)
    (hk : x.kind = FloatKind.double) (hb : x.bits < 2 ^ 64) : toDouble D x = x.bits := by
  unfold toDouble
  rw [hk]
  exact Nat.mod_eq_of_lt hb

end BindLemmas

/-- C2 fails on the code for a value that does not fit `std::int64_t`: executing
a mock statement with the one argument `18446744073709551615ULL` binds `-1` at
index 1, not the argument's value. -/
theorem operatorCall_binds_wrapped_value :
    (SQLite3Stmt.operatorCall mockEngine mockToDouble
        [HostVal.integral 18446744073709551615] (mockStmt [100])).1 = Except.ok true ∧
    (SQLite3Stmt.operatorCall mockEngine mockToDouble
        [HostVal.integral 18446744073709551615] (mockStmt [100])).2.calls
      = [Call.bind_int64 1 (-1), Call.step] ∧
    Call.bind_int64 1 18446744073709551615 ∉
      (SQLite3Stmt.operatorCall mockEngine mockToDouble
        [HostVal.integral 18446744073709551615] (mockStmt [100])).2.calls := by
  have h : SQLite3Stmt.operatorCall mockEngine mockToDouble
      [HostVal.integral 18446744073709551615] (mockStmt [100])
      = (Except.ok true,
         (SQLite3Stmt.sqlite3_step mockEngine
           (bound mockEngine mockToDouble [HostVal.integral 18446744073709551615]
             (mockStmt [100]))).2) := by
    rw [operatorCall_accepted mockEngine mockToDouble _ (mockStmt [100]) (by decide)]
    exact (step_first mockEngine _ rfl).1 (by decide)
  rw [h]
  exact ⟨rfl, rfl, by decide⟩

/-- C2 as amended: `operator()(v1..vn)` issues the engine bind calls for
`v1..vn` at the indices `1..n`, in that order, each value converted to the
engine's type (an integral value to `std::int64_t`, modulo `2^64`; a floating
value to `double`), and then runs `_step`; on a free statement it returns true
when the first step reports a row and false when it reports completion, the
journal then being the `n` binds followed by one step.  When the engine
rejects the bind of a value, the call throws, and the journal ends with that
rejected bind: no later value is bound and no step is made.  An integral value
that `std::int64_t` holds and a `double` are bound unchanged. -/
theorem operatorCall_binds_then_steps (E : Engine σ) (D : HostFloat → Nat)
    (vals : List HostVal) (s : SQLite3Stmt σ) :
    (bindsAccepted E D 0 vals s.handle = true →
      SQLite3Stmt.operatorCall E D vals s = SQLite3Stmt._step E (bound E D vals s) ∧
      (s.occupied = false →
        (stepCode E (bound E D vals s).handle 0 = SQLITE_ROW →
          (SQLite3Stmt.operatorCall E D vals s).1 = Except.ok true ∧
          (SQLite3Stmt.operatorCall E D vals s).2.calls
            = s.calls ++ bindCalls D vals ++ [Call.step]) ∧
        (stepCode E (bound E D vals s).handle 0 = SQLITE_DONE →
          (SQLite3Stmt.operatorCall E D vals s).1 = Except.ok false ∧
          (SQLite3Stmt.operatorCall E D vals s).2.calls
            = s.calls ++ bindCalls D vals ++ [Call.step]))) ∧
    (∀ (pre : List HostVal) (val : HostVal) (post : List HostVal),
      vals = pre ++ val :: post →
      bindsAccepted E D 0 pre s.handle = true →
      (engBind E D (afterBinds E D 0 pre s.handle) ((pre.length : Int) + 1) val).1 ≠ SQLITE_OK →
      (∃ e, (SQLite3Stmt.operatorCall E D vals s).1 = Except.error e) ∧
      (SQLite3Stmt.operatorCall E D vals s).2.calls
        = s.calls ++ bindCalls D pre ++ [bindCall D ((pre.length : Int) + 1) val]) ∧
    (∀ (col v : Int), -(2 ^ 63) ≤ v → v < 2 ^ 63 →
      bindCall D col (HostVal.integral v) = Call.bind_int64 col v) ∧
    (∀ (col : Int) (x : HostFloat), x.kind = FloatKind.double → x.bits < 2 ^ 64 →
      bindCall D col (HostVal.floating x) = Call.bind_double col x.bits) := by
  refine ⟨?_, ?_, fun col v hlo hhi => by simp only [bindCall, toInt64_of_range v hlo hhi],
    fun col x hk hb => by simp only [bindCall, toDouble_of_double D x hk hb]⟩
  · intro hacc
    refine ⟨operatorCall_accepted E D vals s hacc,
      fun hfree => ⟨fun hrow => ?_, fun hdone => ?_⟩⟩
    · have h := (step_first E (bound E D vals s) hfree).1 hrow
      rw [operatorCall_accepted E D vals s hacc, h]
      exact ⟨rfl, rfl⟩
    · have h := (step_first E (bound E D vals s) hfree).2 hdone
      rw [operatorCall_accepted E D vals s hacc, h]
      exact ⟨rfl, rfl⟩
  · intro pre val post hvals hacc hrej
    subst hvals
    obtain ⟨e, s1, h1, h2, _⟩ := bindPack_rejected E D pre val post 0 s hacc
      (by simpa using hrej)
    simp only [Nat.cast_zero] at h1
    simp only [SQLite3Stmt.operatorCall, h1]
    refine ⟨⟨e, rfl⟩, ?_⟩
    rw [h2, bindCalls_eq_enumFrom]
    simp

/-- Witness of C2: an `int`, a `double` and an `unsigned long long` above
`INT64_MAX` over a mock that accepts them and then reports a row, and the same
three values over a mock that rejects index 2. -/
theorem operatorCall_binds_then_steps_witness :
    ((SQLite3Stmt.operatorCall mockEngine mockToDouble
        [HostVal.integral 7, HostVal.floating ⟨FloatKind.double, 9⟩,
         HostVal.integral 18446744073709551613] (mockStmt [100])).1
        = Except.ok true ∧
      (SQLite3Stmt.operatorCall mockEngine mockToDouble
        [HostVal.integral 7, HostVal.floating ⟨FloatKind.double, 9⟩,
         HostVal.integral 18446744073709551613] (mockStmt [100])).2.calls
        = [Call.bind_int64 1 7, Call.bind_double 2 9, Call.bind_int64 3 (-3), Call.step]) ∧
    ((∃ e, (SQLite3Stmt.operatorCall mockEngine mockToDouble
        [HostVal.integral 7, HostVal.floating ⟨FloatKind.double, 9⟩,
         HostVal.integral 18446744073709551613]
        (mockStmtRejecting 2 [100])).1 = Except.error e) ∧
      (SQLite3Stmt.operatorCall mockEngine mockToDouble
        [HostVal.integral 7, HostVal.floating ⟨FloatKind.double, 9⟩,
         HostVal.integral 18446744073709551613]
        (mockStmtRejecting 2 [100])).2.calls
        = [Call.bind_int64 1 7, Call.bind_double 2 9]) ∧
    bindCall mockToDouble 1 (HostVal.integral 7) = Call.bind_int64 1 7 ∧
    bindCall mockToDouble 2 (HostVal.floating ⟨FloatKind.double, 9⟩)
      = Call.bind_double 2 9 := by
  have h3 := (operatorCall_binds_then_steps mockEngine mockToDouble [] (mockStmt [100])).2.2.1
    1 7 (by decide) (by decide)
  have h4 := (operatorCall_binds_then_steps mockEngine mockToDouble [] (mockStmt [100])).2.2.2
    2 ⟨FloatKind.double, 9⟩ rfl (by decide)
  have h1 := (((operatorCall_binds_then_steps mockEngine mockToDouble
    [HostVal.integral 7, HostVal.floating ⟨FloatKind.double, 9⟩,
     HostVal.integral 18446744073709551613] (mockStmt [100])).1
      (by decide)).2 rfl).1 (by decide)
  have h2 := (operatorCall_binds_then_steps mockEngine mockToDouble
    [HostVal.integral 7, HostVal.floating ⟨FloatKind.double, 9⟩,
     HostVal.integral 18446744073709551613]
    (mockStmtRejecting 2 [100])).2.1
      [HostVal.integral 7] (HostVal.floating ⟨FloatKind.double, 9⟩)
      [HostVal.integral 18446744073709551613] rfl
      (by decide) (by decide)
  refine ⟨⟨h1.1, ?_⟩, ⟨h2.1, ?_⟩, h3, h4⟩
  · rw [h1.2]; rfl
  · rw [h2.2]; rfl

section CursorLemmas

open SQLite3Stmt

theorem sqlite3_step_occupied (E : Engine σ) (s : SQLite3Stmt σ) :
    (sqlite3_step E s).2.occupied = s.occupied := rfl

theorem sqlite3_step_handle (E : Engine σ) (s : SQLite3Stmt σ) :
    (sqlite3_step E s).2.handle = (E.step s.handle).2 := rfl

/-- Advancing a cursor taken by `begin` when the engine reports another row. -/
theorem inc_row (E : Engine σ) (s : SQLite3Stmt σ) (hfree : s.occupied = false)
    (h : stepCode E s.handle 0 = SQLITE_ROW) :
    Cursor.ofStmt.operatorInc E s = some (Except.ok (), Cursor.ofStmt, (sqlite3_step E s).2) := by
  simp [Cursor.operatorInc, Cursor.ofStmt, (step_first E s hfree).1 h]

/-- Advancing a cursor taken by `begin` when the engine reports completion. -/
theorem inc_done (E : Engine σ) (s : SQLite3Stmt σ) (hfree : s.occupied = false)
    (h : stepCode E s.handle 0 = SQLITE_DONE) :
    Cursor.ofStmt.operatorInc E s =
      some (Except.ok (), { Cursor.ofStmt with stmt := Ref.null },
            reset E (sqlite3_step E s).2) := by
  simp [Cursor.operatorInc, Cursor.ofStmt, Cursor.release, (step_first E s hfree).2 h]

theorem range_succ_map_shift {ρ : Type} (f : Nat → ρ) (m : Nat) :
    (List.range (m + 1)).map f = f 0 :: (List.range m).map (fun i => f (i + 1)) := by
  rw [List.range_succ_eq_map]
  simp [List.map_map, Function.comp_def]

/-- The loop over a statement that has a row pending and `m` more to come. -/
theorem rangeFor_rows {ρ : Type} (E : Engine σ) (row : σ → ρ) (m : Nat) :
    ∀ (fuel : Nat) (s : SQLite3Stmt σ) (acc : List ρ), s.occupied = false →
      (∀ i, i < m → stepCode E s.handle i = SQLITE_ROW) →
      stepCode E s.handle m = SQLITE_DONE →
      m + 2 ≤ fuel →
      rangeFor E row fuel Cursor.ofStmt s acc =
        some (Except.ok (acc ++ (List.range (m + 1)).map
                (fun i => row (afterSteps E i s.handle))),
              { Cursor.ofStmt with stmt := Ref.null },
              reset E (stepped E (m + 1) s)) := by
  induction m with
  | zero =>
    intro fuel s acc hfree _ hdone hfuel
    obtain ⟨f, rfl⟩ : ∃ f, fuel = f + 2 := ⟨fuel - 2, by omega⟩
    have hlive : Cursor.ofStmt.operatorBool = true := by decide
    have hcur : Cursor.ofStmt.reader.cur = Ref.obj := rfl
    rw [rangeFor]
    simp only [hlive, if_true, hcur, inc_done E s hfree hdone]
    rw [rangeFor]
    simp [Cursor.operatorBool, stepped_one, afterSteps, List.range_succ]
  | succ m ih =>
    intro fuel s acc hfree hrows hdone hfuel
    obtain ⟨f, rfl⟩ : ∃ f, fuel = f + 1 := ⟨fuel - 1, by omega⟩
    have hlive : Cursor.ofStmt.operatorBool = true := by decide
    have hcur : Cursor.ofStmt.reader.cur = Ref.obj := rfl
    have h0 : stepCode E s.handle 0 = SQLITE_ROW := hrows 0 (Nat.succ_pos m)
    rw [rangeFor]
    simp only [hlive, if_true, hcur, inc_row E s hfree h0]
    rw [ih f (sqlite3_step E s).2 (acc ++ [row s.handle]) hfree
      (fun i hi => by
        have := hrows (i + 1) (by omega)
        rwa [stepCode_succ] at this)
      (by rwa [stepCode_succ] at hdone) (by omega)]
    rw [stepped_succ, range_succ_map_shift (fun i => row (afterSteps E i s.handle)) (m + 1)]
    simp [afterSteps, sqlite3_step_handle]

theorem count_step_bindCalls (D : HostFloat → Nat) (vals : List HostVal) :
    List.count Call.step (bindCalls D vals) = 0 := by
  rw [List.count_eq_zero]
  intro hmem
  simp only [bindCalls, List.mem_map] at hmem
  obtain ⟨p, _, hp⟩ := hmem
  cases hv : p.2 <;> simp [bindCall, hv] at hp

end CursorLemmas

/-- C3: when the values are accepted and the engine then yields `n ≥ 1` rows
followed by completion, `operator()` returns true and the loop
`c = begin(); while (c) { visit(*c); ++c; }` returns (given fuel for its `n + 1`
tests) having visited exactly the `n` rows in the order the engine produced
them, with the cursor not live; the engine was stepped `n + 1` times in all. -/
theorem rangeFor_visits_all_rows {ρ : Type} (E : Engine σ) (D : HostFloat → Nat) (row : σ → ρ)
    (vals : List HostVal) (s : SQLite3Stmt σ) (n fuel : Nat)
    (hn : 1 ≤ n) (hfree : s.occupied = false)
    (hacc : bindsAccepted E D 0 vals s.handle = true)
    (hrows : ∀ i, i < n → stepCode E (bound E D vals s).handle i = SQLITE_ROW)
    (hdone : stepCode E (bound E D vals s).handle n = SQLITE_DONE)
    (hfuel : n + 1 ≤ fuel) :
    ∃ s1 c2 s2,
      SQLite3Stmt.operatorCall E D vals s = (Except.ok true, s1) ∧
      rangeFor E row fuel (SQLite3Stmt.begin s1) s1 [] =
        some (Except.ok ((List.range n).map
                (fun i => row (afterSteps E (i + 1) (bound E D vals s).handle))), c2, s2) ∧
      c2.operatorBool = false ∧
      s2.calls = s.calls ++ bindCalls D vals ++ List.replicate (n + 1) Call.step
                  ++ [Call.reset] ∧
      List.count Call.step s2.calls = List.count Call.step s.calls + (n + 1) := by
  obtain ⟨m, rfl⟩ : ∃ m, n = m + 1 := ⟨n - 1, by omega⟩
  have hb : (bound E D vals s).occupied = false := hfree
  have h0 : stepCode E (bound E D vals s).handle 0 = SQLITE_ROW := hrows 0 (by omega)
  have hcall : SQLite3Stmt.operatorCall E D vals s
      = (Except.ok true, (SQLite3Stmt.sqlite3_step E (bound E D vals s)).2) := by
    rw [operatorCall_accepted E D vals s hacc]
    exact (step_first E (bound E D vals s) hb).1 h0
  have hloop := rangeFor_rows E row m fuel (SQLite3Stmt.sqlite3_step E (bound E D vals s)).2 []
    hb
    (fun i hi => by
      have := hrows (i + 1) (by omega)
      rwa [stepCode_succ] at this)
    (by rwa [stepCode_succ] at hdone) (by omega)
  refine ⟨(SQLite3Stmt.sqlite3_step E (bound E D vals s)).2,
    { Cursor.ofStmt with stmt := Ref.null },
    SQLite3Stmt.reset E (stepped E (m + 1) (SQLite3Stmt.sqlite3_step E (bound E D vals s)).2),
    hcall, ?_, ?_, ?_, ?_⟩
  · rw [SQLite3Stmt.begin, hloop]
    simp [afterSteps, sqlite3_step_handle]
  · rfl
  · rw [stepped_succ]
    simp [SQLite3Stmt.reset, stepped, bound]
  · rw [stepped_succ]
    simp [SQLite3Stmt.reset, stepped, bound, List.count_append,
      count_step_bindCalls, List.count_replicate_self]

/-- Witness of C3: a mock statement yielding three rows and then completion;
the loop visits the rows numbered 1, 2, 3 and the engine is stepped 4 times. -/
theorem rangeFor_visits_all_rows_witness :
    ∃ s1 c2 s2,
      SQLite3Stmt.operatorCall mockEngine mockToDouble [] (mockStmt [100, 100, 100, 101])
        = (Except.ok true, s1) ∧
      rangeFor mockEngine Mock.produced 4 (SQLite3Stmt.begin s1) s1 [] =
        some (Except.ok [1, 2, 3], c2, s2) ∧
      c2.operatorBool = false ∧
      s2.calls = [Call.step, Call.step, Call.step, Call.step, Call.reset] ∧
      List.count Call.step s2.calls = 4 :=
  rangeFor_visits_all_rows mockEngine mockToDouble Mock.produced []
    (mockStmt [100, 100, 100, 101]) 3 4
    (by decide) rfl (by decide) (by decide) (by decide) (by decide)

section OccupancyLemmas

open SQLite3Stmt

theorem stepAnswer_snd (E : Engine σ) (code : Int) (s : SQLite3Stmt σ) :
    (stepAnswer E code s).2 = s := by
  unfold stepAnswer
  split
  · rfl
  · split <;> rfl

/-- Whatever the engine answers, the retry loop only steps the engine. -/
theorem stepLoop_stepped (E : Engine σ) (d : Nat) :
    ∀ (r : Nat) (s : SQLite3Stmt σ), 16 - r ≤ d →
      ∃ n, (stepLoop E r s).2 = stepped E n s := by
  induction d with
  | zero =>
    intro r s hd
    by_cases hb : (E.step s.handle).1 = SQLITE_BUSY
    · exact ⟨1, by rw [stepLoop_giveup E r s hb (by omega), stepped_one]⟩
    · exact ⟨1, by rw [stepLoop_answer E r s hb, stepAnswer_snd, stepped_one]⟩
  | succ d ih =>
    intro r s hd
    by_cases hb : (E.step s.handle).1 = SQLITE_BUSY
    · by_cases hr : r + 1 < 16
      · obtain ⟨n, hn⟩ := ih (r + 1) (sqlite3_step E s).2 (by omega)
        exact ⟨n + 1, by rw [stepLoop_retry E r s hb hr, hn, stepped_succ]⟩
      · exact ⟨1, by rw [stepLoop_giveup E r s hb hr, stepped_one]⟩
    · exact ⟨1, by rw [stepLoop_answer E r s hb, stepAnswer_snd, stepped_one]⟩

/-- Member `_step` only steps the engine: it leaves `occupied` alone and adds
nothing but step calls to the journal. -/
theorem _step_stepped (E : Engine σ) (s : SQLite3Stmt σ) :
    ∃ n, (_step E s).2 = stepped E n s := by
  unfold _step
  split
  · exact ⟨0, by simp [stepped, afterSteps]⟩
  · exact stepLoop_stepped E 16 0 s (by omega)

theorem _step_occupied (E : Engine σ) (s : SQLite3Stmt σ) :
    (_step E s).2.occupied = s.occupied := by
  obtain ⟨n, hn⟩ := _step_stepped E s
  rw [hn]
  rfl

theorem _step_count_reset (E : Engine σ) (s : SQLite3Stmt σ) :
    List.count Call.reset (_step E s).2.calls = List.count Call.reset s.calls := by
  obtain ⟨n, hn⟩ := _step_stepped E s
  rw [hn]
  have h0 : List.count Call.reset (List.replicate n Call.step) = 0 := by
    rw [List.count_eq_zero]
    intro hmem
    exact absurd (List.eq_of_mem_replicate hmem) (by decide)
  simp [stepped, List.count_append, h0]

theorem _bind_val_occupied (E : Engine σ) (D : HostFloat → Nat) (col : Int) (val : HostVal)
    (s : SQLite3Stmt σ) :
    (_bind_val E D col val s).2.occupied = s.occupied := by
  cases val
  · simp only [_bind_val, bindInteger]; split <;> rfl
  · simp only [_bind_val, bindFloat]; split <;> rfl

theorem bindPack_occupied (E : Engine σ) (D : HostFloat → Nat) (vals : List HostVal) :
    ∀ (i : Int) (s : SQLite3Stmt σ), (bindPack E D i vals s).2.occupied = s.occupied := by
  induction vals with
  | nil => intro i s; rfl
  | cons val vals ih =>
    intro i s
    have hb := _bind_val_occupied E D (i + 1) val s
    simp only [bindPack]
    split
    · next s1 heq => rw [ih, ← hb, heq]
    · next e s1 heq => rw [← hb, heq]

/-- No path through `operator()` writes `true` to `occupied`. -/
theorem operatorCall_occupied (E : Engine σ) (D : HostFloat → Nat) (vals : List HostVal)
    (s : SQLite3Stmt σ) :
    (operatorCall E D vals s).2.occupied = s.occupied := by
  have hb := bindPack_occupied E D vals 0 s
  simp only [operatorCall]
  split
  · next s1 heq => rw [_step_occupied, ← hb, heq]
  · next e s1 heq => rw [← hb, heq]

/-- Member `operator++` never writes `true` to `occupied`. -/
theorem inc_occupied (E : Engine σ) (c c1 : Cursor) (s s1 : SQLite3Stmt σ)
    (r : Except SQLite3Error Unit) (h : c.operatorInc E s = some (r, c1, s1))
    (hfree : s.occupied = false) : s1.occupied = false := by
  have hs := _step_occupied E s
  cases hc : c.stmt with
  | null => simp [Cursor.operatorInc, hc] at h
  | obj =>
    simp only [Cursor.operatorInc, hc, Cursor.release] at h
    split at h
    · next e s2 heq =>
      simp only [Option.some.injEq, Prod.mk.injEq] at h
      rw [← h.2.2, ← hfree, ← hs, heq]
    · next s2 heq =>
      simp only [Option.some.injEq, Prod.mk.injEq] at h
      rw [← h.2.2, ← hfree, ← hs, heq]
    · next s2 heq =>
      simp only [Option.some.injEq, Prod.mk.injEq] at h
      rw [← h.2.2]
      rfl

theorem operatorCall_mock_row :
    operatorCall mockEngine mockToDouble [] (mockStmt [100, 101]) = (Except.ok true, mockStmtAtRow) := by
  rw [operatorCall_accepted mockEngine mockToDouble [] (mockStmt [100, 101]) (by decide)]
  exact (step_first mockEngine (bound mockEngine mockToDouble [] (mockStmt [100, 101])) rfl).1
    (by decide)

theorem _step_mock_done :
    _step mockEngine mockStmtAtRow = (Except.ok false, stepped mockEngine 1 mockStmtAtRow) :=
  (step_first mockEngine mockStmtAtRow rfl).2 (by decide)

/-- Releasing a live cursor: the statement is reset once and the cursor dies. -/
theorem release_live (E : Engine σ) (c : Cursor) (s : SQLite3Stmt σ)
    (hlive : c.operatorBool = true) :
    c.release E s = some ({ c with stmt := Ref.null }, reset E s) := by
  cases hc : c.stmt with
  | null => simp [Cursor.operatorBool, hc] at hlive
  | obj => simp [Cursor.release, hc]

/-- A statement that is not occupied can be executed again, and `begin` then
hands out a live cursor. -/
theorem free_stmt_reusable (E : Engine σ) (D : HostFloat → Nat) (s : SQLite3Stmt σ)
    (hfree : s.occupied = false)
    (vals : List HostVal) :
    (begin (operatorCall E D vals s).2).operatorBool = true ∧
    (bindsAccepted E D 0 vals s.handle = true →
      stepCode E (bound E D vals s).handle 0 = SQLITE_ROW →
      (operatorCall E D vals s).1 = Except.ok true) := by
  refine ⟨rfl, fun hacc hrow => ?_⟩
  rw [operatorCall_accepted E D vals s hacc, (step_first E (bound E D vals s) hfree).1 hrow]

end OccupancyLemmas

/-- C4, evaluated on the code: a mock statement is executed and reports a row;
`begin` then constructs a live cursor, and yet `occupied` is still false and
`operator bool` of the statement still reports true.  The constructor
`Cursor(SQLite3Stmt*)` stores the pointer and nothing more; no statement of
the wrapper assigns `true` to `occupied`. -/
theorem begin_leaves_occupied_false :
    (SQLite3Stmt.operatorCall mockEngine mockToDouble [] (mockStmt [100, 101])).1 = Except.ok true ∧
    (SQLite3Stmt.begin
      (SQLite3Stmt.operatorCall mockEngine mockToDouble [] (mockStmt [100, 101])).2).operatorBool = true ∧
    (SQLite3Stmt.operatorCall mockEngine mockToDouble [] (mockStmt [100, 101])).2.occupied = false ∧
    (SQLite3Stmt.operatorCall mockEngine mockToDouble [] (mockStmt [100, 101])).2.operatorBool = true := by
  rw [operatorCall_mock_row]
  exact ⟨rfl, rfl, rfl, rfl⟩

/-- C5: a live cursor dropped by exhaustion (an advance whose step reports
completion) or by destruction ends not live, the drop issues exactly one
engine reset, the statement reports not occupied, the destructor of the
exhausted cursor does nothing more, and the statement can be executed again:
`begin` after a new `operator()` yields a live cursor, and `operator()` reaches
the engine (it returns true when the values are accepted and the engine
reports a row). -/
theorem cursor_drop_releases (E : Engine σ) (D : HostFloat → Nat) (s : SQLite3Stmt σ) (c : Cursor)
    (hlive : c.operatorBool = true) :
    ((SQLite3Stmt._step E s).1 = Except.ok false →
      ∃ c1 s1, c.operatorInc E s = some (Except.ok (), c1, s1) ∧
        c1.operatorBool = false ∧
        s1.operatorBool = true ∧
        List.count Call.reset s1.calls = List.count Call.reset s.calls + 1 ∧
        c1.destroy E s1 = some (c1, s1) ∧
        ∀ vals, (SQLite3Stmt.begin (SQLite3Stmt.operatorCall E D vals s1).2).operatorBool = true ∧
          (bindsAccepted E D 0 vals s1.handle = true →
            stepCode E (bound E D vals s1).handle 0 = SQLITE_ROW →
            (SQLite3Stmt.operatorCall E D vals s1).1 = Except.ok true)) ∧
    (∃ c1 s1, c.destroy E s = some (c1, s1) ∧
        c1.operatorBool = false ∧
        s1.operatorBool = true ∧
        s1.calls = s.calls ++ [Call.reset] ∧
        ∀ vals, (SQLite3Stmt.begin (SQLite3Stmt.operatorCall E D vals s1).2).operatorBool = true ∧
          (bindsAccepted E D 0 vals s1.handle = true →
            stepCode E (bound E D vals s1).handle 0 = SQLITE_ROW →
            (SQLite3Stmt.operatorCall E D vals s1).1 = Except.ok true)) := by
  have hc : c.stmt = Ref.obj := by
    cases h : c.stmt with
    | null => simp [Cursor.operatorBool, h] at hlive
    | obj => rfl
  constructor
  · intro hdone
    have hstep : SQLite3Stmt._step E s = (Except.ok false, (SQLite3Stmt._step E s).2) :=
      Prod.ext hdone rfl
    refine ⟨{ c with stmt := Ref.null }, SQLite3Stmt.reset E (SQLite3Stmt._step E s).2,
      ?_, rfl, rfl, ?_, rfl, free_stmt_reusable E D _ rfl⟩
    · unfold Cursor.operatorInc
      rw [hc, hstep]
      simp [Cursor.release, hc]
    · simp [SQLite3Stmt.reset, List.count_append, _step_count_reset]
  · refine ⟨{ c with stmt := Ref.null }, SQLite3Stmt.reset E s, ?_, rfl, rfl, rfl,
      free_stmt_reusable E D _ rfl⟩
    simp [Cursor.destroy, hlive, release_live E c s hlive]

/-- Witness of C5: the cursor taken on the mock statement once it is on its
only row. -/
theorem cursor_drop_releases_witness :
    (∃ c1 s1, (SQLite3Stmt.begin mockStmtAtRow).operatorInc mockEngine mockStmtAtRow
        = some (Except.ok (), c1, s1) ∧
      c1.operatorBool = false ∧ s1.operatorBool = true ∧
      List.count Call.reset s1.calls = 1) ∧
    (∃ c1 s1, (SQLite3Stmt.begin mockStmtAtRow).destroy mockEngine mockStmtAtRow
        = some (c1, s1) ∧
      c1.operatorBool = false ∧ s1.operatorBool = true ∧
      s1.calls = [Call.step, Call.reset]) := by
  have h := cursor_drop_releases mockEngine mockToDouble mockStmtAtRow
    (SQLite3Stmt.begin mockStmtAtRow) rfl
  constructor
  · obtain ⟨c1, s1, h1, h2, h3, h4, _⟩ := h.1 (congrArg Prod.fst _step_mock_done)
    exact ⟨c1, s1, h1, h2, h3, h4⟩
  · obtain ⟨c1, s1, h1, h2, h3, h4, _⟩ := h.2
    exact ⟨c1, s1, h1, h2, h3, h4⟩

/-- C6 fails on the code: on a mock statement that was never executed, and on
one whose only step reported completion, `begin` yields a live cursor, which
differs from the cursor of `end`. -/
theorem begin_without_row_is_live :
    (SQLite3Stmt.begin (mockStmt [101])).operatorBool = true ∧
    (SQLite3Stmt.operatorCall mockEngine mockToDouble [] (mockStmt [101])).1 = Except.ok false ∧
    (SQLite3Stmt.begin
      (SQLite3Stmt.operatorCall mockEngine mockToDouble [] (mockStmt [101])).2).operatorBool = true ∧
    (SQLite3Stmt.end_ (mockStmt [101])).operatorBool = false ∧
    SQLite3Stmt.begin (mockStmt [101]) ≠ SQLite3Stmt.end_ (mockStmt [101]) := by
  refine ⟨rfl, ?_, rfl, rfl, by decide⟩
  rw [operatorCall_accepted mockEngine mockToDouble [] (mockStmt [101]) (by decide)]
  exact congrArg Prod.fst
    ((step_first mockEngine (bound mockEngine mockToDouble [] (mockStmt [101])) rfl).2 (by decide))

/-- C6 as amended: on a statement with no pending row, `begin` yields a live
cursor (`operator bool` is true), unlike `end`, whose cursor is not live.  That
is so before any execution, and after an `operator()` whose values were
accepted and whose first step reported completion: the call returns false, and
`begin` on the statement it leaves is live all the same. -/
theorem begin_live_without_pending_row (E : Engine σ) (D : HostFloat → Nat)
    (vals : List HostVal) (s : SQLite3Stmt σ)
    (hfree : s.occupied = false)
    (hacc : bindsAccepted E D 0 vals s.handle = true)
    (hdone : stepCode E (bound E D vals s).handle 0 = SQLITE_DONE) :
    (SQLite3Stmt.begin s).operatorBool = true ∧
    (SQLite3Stmt.end_ s).operatorBool = false ∧
    (SQLite3Stmt.operatorCall E D vals s).1 = Except.ok false ∧
    (SQLite3Stmt.begin (SQLite3Stmt.operatorCall E D vals s).2).operatorBool = true ∧
    (SQLite3Stmt.end_ (SQLite3Stmt.operatorCall E D vals s).2).operatorBool = false ∧
    SQLite3Stmt.begin (SQLite3Stmt.operatorCall E D vals s).2
      ≠ SQLite3Stmt.end_ (SQLite3Stmt.operatorCall E D vals s).2 := by
  have hne : Cursor.ofStmt ≠ Cursor.default := by decide
  refine ⟨rfl, rfl, ?_, rfl, rfl, hne⟩
  rw [operatorCall_accepted E D vals s hacc]
  exact congrArg Prod.fst ((step_first E (bound E D vals s) hfree).2 hdone)

/-- Witness of C6 as amended: a mock statement whose engine has no row. -/
theorem begin_live_without_pending_row_witness :
    (SQLite3Stmt.begin (mockStmt [101])).operatorBool = true ∧
    (SQLite3Stmt.end_ (mockStmt [101])).operatorBool = false ∧
    (SQLite3Stmt.operatorCall mockEngine mockToDouble [HostVal.integral 12]
      (mockStmt [101])).1 = Except.ok false ∧
    (SQLite3Stmt.begin (SQLite3Stmt.operatorCall mockEngine mockToDouble
      [HostVal.integral 12] (mockStmt [101])).2).operatorBool = true ∧
    (SQLite3Stmt.end_ (SQLite3Stmt.operatorCall mockEngine mockToDouble
      [HostVal.integral 12] (mockStmt [101])).2).operatorBool = false ∧
    SQLite3Stmt.begin (SQLite3Stmt.operatorCall mockEngine mockToDouble
        [HostVal.integral 12] (mockStmt [101])).2
      ≠ SQLite3Stmt.end_ (SQLite3Stmt.operatorCall mockEngine mockToDouble
        [HostVal.integral 12] (mockStmt [101])).2 :=
  begin_live_without_pending_row mockEngine mockToDouble [HostVal.integral 12]
    (mockStmt [101]) rfl (by decide) (by decide)

section BuilderLemmas

theorem filled_start (buffer : List Char) : Filled buffer [] (Scratch.start buffer) :=
  ⟨rfl, fun _ => by simp [Scratch.start]⟩

theorem filled_storeByte (buffer t : List Char) (w : Scratch) (ch : Char)
    (h : Filled buffer t w) : Filled buffer (t ++ [ch]) (storeByte w t.length ch) := by
  refine ⟨?_, fun hle => ?_⟩
  · simp [storeByte, h.1, List.range_succ]
  · have hlt : t.length < buffer.length := by
      simp only [List.length_append, List.length_singleton] at hle
      omega
    have hm := h.2 (by omega)
    simp only [storeByte, hm]
    rw [List.set_append_right _ _ (le_refl _), Nat.sub_self, List.drop_eq_getElem_cons hlt]
    simp only [List.set_cons_zero, List.append_assoc, List.singleton_append,
      List.length_append, List.length_singleton]

theorem filled_memcpy (buffer : List Char) (src : List Char) :
    ∀ (t : List Char) (w : Scratch), Filled buffer t w →
      Filled buffer (t ++ src) (memcpy w t.length src) ∧ (memcpy w t.length src).p = w.p := by
  induction src with
  | nil => intro t w h; simpa [memcpy] using h
  | cons ch rest ih =>
    intro t w h
    have h1 := ih (t ++ [ch]) (storeByte w t.length ch) (filled_storeByte buffer t w ch h)
    simp only [List.length_append, List.length_singleton, List.append_assoc,
      List.singleton_append] at h1
    simpa [memcpy] using h1

theorem take_strlen (str : List Char) : str.take (strlen str) = cstr str := by
  unfold strlen cstr
  induction str with
  | nil => rfl
  | cons ch rest ih =>
    by_cases h : (ch != NUL) = true
    · simp [List.takeWhile_cons, h, ih]
    · simp [List.takeWhile_cons, h]

theorem cstr_of_not_mem (str : List Char) (h : NUL ∉ str) : cstr str = str := by
  unfold cstr
  rw [List.takeWhile_eq_self_iff]
  intro x hx
  simp only [bne_iff_ne, ne_eq]
  intro hxe
  exact h (hxe ▸ hx)

/-- The state between two macros: `t` has been written and `p` points past it. -/
theorem filled_PUT_PTEXT (buffer t text : List Char) (w : Scratch)
    (h : Filled buffer t w) (hp : w.p = t.length) :
    Filled buffer (t ++ text) (PUT_PTEXT w text) ∧ (PUT_PTEXT w text).p = (t ++ text).length := by
  have hm := filled_memcpy buffer text t w h
  rw [← hp] at hm
  refine ⟨⟨hm.1.1, hm.1.2⟩, ?_⟩
  simp [PUT_PTEXT, hp]

theorem filled_PUT_CSTR (buffer t str : List Char) (w : Scratch)
    (h : Filled buffer t w) (hp : w.p = t.length) :
    Filled buffer (t ++ cstr str) (PUT_CSTR w str) ∧
      (PUT_CSTR w str).p = (t ++ cstr str).length := by
  have hm := filled_memcpy buffer (cstr str) t w h
  rw [← hp] at hm
  refine ⟨⟨?_, ?_⟩, ?_⟩
  · simpa [PUT_CSTR, take_strlen] using hm.1.1
  · simpa [PUT_CSTR, take_strlen] using hm.1.2
  · simp [PUT_CSTR, hp, strlen]

theorem filled_PUT_CHAR (buffer t : List Char) (ch : Char) (w : Scratch)
    (h : Filled buffer t w) (hp : w.p = t.length) :
    Filled buffer (t ++ [ch]) (PUT_CHAR w ch) ∧ (PUT_CHAR w ch).p = (t ++ [ch]).length := by
  have hm := filled_storeByte buffer t w ch h
  rw [← hp] at hm
  refine ⟨⟨hm.1, hm.2⟩, ?_⟩
  simp [PUT_CHAR, storeByte, hp]

theorem filled_PUT_END (buffer t : List Char) (w : Scratch)
    (h : Filled buffer t w) (hp : w.p = t.length) :
    Filled buffer (t ++ [';'] ++ [NUL]) (PUT_END w) := by
  have h1 := filled_PUT_CHAR buffer t ';' w h hp
  have h2 := filled_storeByte buffer (t ++ [';']) (PUT_CHAR w ';') NUL h1.1
  rw [← h1.2] at h2
  exact h2

/-- Reading back a filled buffer: the text before the terminator. -/
theorem compiledText_filled (buffer t : List Char) (w : Scratch)
    (h : Filled buffer (t ++ [NUL]) w) (hbuf : buffer.length = bufsize)
    (hfit : t.length + 1 ≤ bufsize) (hnul : NUL ∉ t) :
    compiledText w = some t := by
  have hlen : (t ++ [NUL]).length = t.length + 1 := by simp
  have hstores : (w.stores.all (fun off => decide (off < bufsize))) = true := by
    rw [h.1, hlen, List.all_eq_true]
    intro off hoff
    have := List.mem_range.mp hoff
    exact decide_eq_true (by omega)
  have hmem := h.2 (by rw [hlen, hbuf]; exact hfit)
  unfold compiledText
  rw [if_pos hstores, hmem]
  congr 1
  unfold cstr
  rw [List.append_assoc, List.takeWhile_append_of_pos]
  · simp [NUL]
  · intro a ha
    simp only [bne_iff_ne, ne_eq]
    intro hae
    exact hnul (hae ▸ ha)

/-- Reading back after a store outside the allocation: undefined. -/
theorem compiledText_overflow (buffer t : List Char) (w : Scratch)
    (h : Filled buffer t w) (hover : bufsize < t.length) :
    compiledText w = none := by
  unfold compiledText
  rw [if_neg]
  rw [h.1, Bool.not_eq_true, List.all_eq_false]
  exact ⟨bufsize, List.mem_range.mpr hover, by simp⟩

/-- What `makeSelect` leaves in the buffer: the SELECT text of the C strings at
its arguments, and a NUL. -/
theorem makeSelect_filled (buffer table : List Char) (names where_ : Option (List Char)) :
    Filled buffer (selectText (cstr table) (names.map cstr) (where_.map cstr) ++ [NUL])
      (makeSelect buffer table names where_) := by
  have h1 := filled_PUT_PTEXT buffer [] _text_select _ (filled_start buffer) rfl
  cases names with
  | none =>
    have h2 := filled_PUT_CHAR buffer _ '*' _ h1.1 h1.2
    have h3 := filled_PUT_PTEXT buffer _ _text_from _ h2.1 h2.2
    have h4 := filled_PUT_CSTR buffer _ table _ h3.1 h3.2
    cases where_ with
    | none =>
      have h7 := filled_PUT_END buffer _ _ h4.1 h4.2
      have ht : selectText (cstr table) (Option.map cstr none) (Option.map cstr none) ++ [NUL]
          = [] ++ _text_select ++ ['*'] ++ _text_from ++ cstr table ++ [';'] ++ [NUL] := by
        simp [selectText, _text_select, _text_from]
      rw [ht]
      exact h7
    | some w =>
      have h5 := filled_PUT_PTEXT buffer _ _text_where _ h4.1 h4.2
      have h6 := filled_PUT_CSTR buffer _ w _ h5.1 h5.2
      have h7 := filled_PUT_END buffer _ _ h6.1 h6.2
      have ht : selectText (cstr table) (Option.map cstr none) (Option.map cstr (some w))
            ++ [NUL]
          = [] ++ _text_select ++ ['*'] ++ _text_from ++ cstr table ++ _text_where ++ cstr w
              ++ [';'] ++ [NUL] := by
        simp [selectText, _text_select, _text_from, _text_where]
      rw [ht]
      exact h7
  | some n =>
    have h2 := filled_PUT_CSTR buffer _ n _ h1.1 h1.2
    have h3 := filled_PUT_PTEXT buffer _ _text_from _ h2.1 h2.2
    have h4 := filled_PUT_CSTR buffer _ table _ h3.1 h3.2
    cases where_ with
    | none =>
      have h7 := filled_PUT_END buffer _ _ h4.1 h4.2
      have ht : selectText (cstr table) (Option.map cstr (some n)) (Option.map cstr none)
            ++ [NUL]
          = [] ++ _text_select ++ cstr n ++ _text_from ++ cstr table ++ [';'] ++ [NUL] := by
        simp [selectText, _text_select, _text_from]
      rw [ht]
      exact h7
    | some w =>
      have h5 := filled_PUT_PTEXT buffer _ _text_where _ h4.1 h4.2
      have h6 := filled_PUT_CSTR buffer _ w _ h5.1 h5.2
      have h7 := filled_PUT_END buffer _ _ h6.1 h6.2
      have ht : selectText (cstr table) (Option.map cstr (some n)) (Option.map cstr (some w))
            ++ [NUL]
          = [] ++ _text_select ++ cstr n ++ _text_from ++ cstr table ++ _text_where ++ cstr w
              ++ [';'] ++ [NUL] := by
        simp [selectText, _text_select, _text_from, _text_where]
      rw [ht]
      exact h7

/-- The loop over the name/value pairs appends each `name=value` in turn. -/
theorem filled_putNameVals (buffer : List Char) (name_vals : List (List Char × List Char)) :
    ∀ (t : List Char) (w : Scratch), Filled buffer t w → w.p = t.length →
      Filled buffer
        (t ++ (name_vals.map (fun nv => cstr nv.1 ++ "=".toList ++ cstr nv.2)).flatten)
        (putNameVals w name_vals) ∧
      (putNameVals w name_vals).p =
        (t ++ (name_vals.map (fun nv => cstr nv.1 ++ "=".toList ++ cstr nv.2)).flatten).length := by
  induction name_vals with
  | nil => intro t w h hp; simpa [putNameVals] using ⟨h, hp⟩
  | cons nv rest ih =>
    intro t w h hp
    obtain ⟨name, val⟩ := nv
    have h1 := filled_PUT_CSTR buffer _ name _ h hp
    have h2 := filled_PUT_CHAR buffer _ '=' _ h1.1 h1.2
    have h3 := filled_PUT_CSTR buffer _ val _ h2.1 h2.2
    have h4 := ih _ _ h3.1 h3.2
    have ht : t ++ (List.map (fun nv => cstr nv.1 ++ "=".toList ++ cstr nv.2)
          ((name, val) :: rest)).flatten
        = t ++ cstr name ++ ['='] ++ cstr val ++
            (List.map (fun nv => cstr nv.1 ++ "=".toList ++ cstr nv.2) rest).flatten := by
      simp
    rw [ht]
    exact h4

/-- What `makeUpdate` leaves in the buffer: the UPDATE text of the C strings at
its arguments, and a NUL. -/
theorem makeUpdate_filled (buffer table : List Char)
    (name_vals : List (List Char × List Char)) (where_ : List Char) :
    Filled buffer
      (updateText (cstr table) (name_vals.map (fun nv => (cstr nv.1, cstr nv.2))) (cstr where_)
        ++ [NUL])
      (makeUpdate buffer table name_vals where_) := by
  have h1 := filled_PUT_PTEXT buffer [] _text_update _ (filled_start buffer) rfl
  have h2 := filled_PUT_CSTR buffer _ table _ h1.1 h1.2
  have h3 := filled_PUT_PTEXT buffer _ _text_set _ h2.1 h2.2
  have h4 := filled_putNameVals buffer name_vals _ _ h3.1 h3.2
  have h5 := filled_PUT_PTEXT buffer _ _text_where _ h4.1 h4.2
  have h6 := filled_PUT_CSTR buffer _ where_ _ h5.1 h5.2
  have h7 := filled_PUT_END buffer _ _ h6.1 h6.2
  have ht : updateText (cstr table) (name_vals.map (fun nv => (cstr nv.1, cstr nv.2)))
        (cstr where_) ++ [NUL]
      = [] ++ _text_update ++ cstr table ++ _text_set ++
          (name_vals.map (fun nv => cstr nv.1 ++ "=".toList ++ cstr nv.2)).flatten ++
          _text_where ++ cstr where_ ++ [';'] ++ [NUL] := by
    simp [updateText, _text_update, _text_set, _text_where, List.map_map, Function.comp_def]
  rw [ht]
  exact h7

theorem map_cstr_of_not_mem (name_vals : List (List Char × List Char))
    (h : ∀ nv ∈ name_vals, NUL ∉ nv.1 ∧ NUL ∉ nv.2) :
    name_vals.map (fun nv => (cstr nv.1, cstr nv.2)) = name_vals := by
  induction name_vals with
  | nil => rfl
  | cons nv rest ih =>
    have h0 := h nv (List.mem_cons_self _ _)
    rw [List.map_cons, ih (fun x hx => h x (List.mem_cons_of_mem _ hx)),
      cstr_of_not_mem _ h0.1, cstr_of_not_mem _ h0.2]

theorem not_mem_selectText (table : List Char) (names where_ : Option (List Char))
    (htable : NUL ∉ table) (hnames : ∀ n, names = some n → NUL ∉ n)
    (hwhere : ∀ w, where_ = some w → NUL ∉ w) :
    NUL ∉ selectText table names where_ := by
  have hc : ∀ (l : List Char), (decide (NUL ∈ l) = false) → NUL ∉ l := by
    intro l hl hm
    simp [hm] at hl
  have h1 : NUL ∉ "SELECT ".toList := hc _ (by decide)
  have h2 : NUL ∉ " FROM ".toList := hc _ (by decide)
  have h3 : NUL ∉ " WHERE ".toList := hc _ (by decide)
  have h4 : NUL ∉ ";".toList := hc _ (by decide)
  have h5 : NUL ∉ "*".toList := hc _ (by decide)
  have hn : NUL ∉ names.getD "*".toList := by
    cases names with
    | none => exact h5
    | some n => exact hnames n rfl
  have hw : NUL ∉ (match where_ with
      | some w => " WHERE ".toList ++ w
      | none => []) := by
    cases where_ with
    | none => simp
    | some w =>
      simp only [List.mem_append, not_or]
      exact ⟨h3, hwhere w rfl⟩
  unfold selectText
  simp only [List.mem_append, not_or]
  exact ⟨⟨⟨⟨⟨h1, hn⟩, h2⟩, htable⟩, hw⟩, h4⟩

theorem not_mem_updateText (table : List Char) (name_vals : List (List Char × List Char))
    (where_ : List Char) (htable : NUL ∉ table)
    (hpairs : ∀ nv ∈ name_vals, NUL ∉ nv.1 ∧ NUL ∉ nv.2) (hwhere : NUL ∉ where_) :
    NUL ∉ updateText table name_vals where_ := by
  have hc : ∀ (l : List Char), (decide (NUL ∈ l) = false) → NUL ∉ l := by
    intro l hl hm
    simp [hm] at hl
  have h1 : NUL ∉ "UPDATE ".toList := hc _ (by decide)
  have h2 : NUL ∉ " SET ".toList := hc _ (by decide)
  have h3 : NUL ∉ " WHERE ".toList := hc _ (by decide)
  have h4 : NUL ∉ ";".toList := hc _ (by decide)
  have h5 : NUL ∉ "=".toList := hc _ (by decide)
  have hp : NUL ∉ (name_vals.map (fun nv => nv.1 ++ "=".toList ++ nv.2)).flatten := by
    intro hm
    rw [List.mem_flatten] at hm
    obtain ⟨l, hl, hml⟩ := hm
    rw [List.mem_map] at hl
    obtain ⟨nv, hnv, rfl⟩ := hl
    simp only [List.mem_append] at hml
    rcases hml with (h | h) | h
    · exact (hpairs nv hnv).1 h
    · exact h5 h
    · exact (hpairs nv hnv).2 h
  unfold updateText
  simp only [List.mem_append, not_or]
  exact ⟨⟨⟨⟨⟨⟨h1, htable⟩, h2⟩, hp⟩, h3⟩, hwhere⟩, h4⟩

end BuilderLemmas

/-- C7: for a table name, an optional column list and an optional where
fragment that are C strings (no NUL inside) and whose assembled text with its
terminator fits the scratch buffer, the text that `makeSelect` compiles is
exactly `"SELECT " ++ (names or "*") ++ " FROM " ++ table ++
(" WHERE " ++ where, if given) ++ ";"`. -/
theorem makeSelect_compiles_selectText (buffer table : List Char)
    (names where_ : Option (List Char))
    (hbuf : buffer.length = bufsize)
    (htable : NUL ∉ table)
    (hnames : ∀ n, names = some n → NUL ∉ n)
    (hwhere : ∀ w, where_ = some w → NUL ∉ w)
    (hfit : (selectText table names where_).length + 1 ≤ bufsize) :
    compiledText (makeSelect buffer table names where_)
      = some (selectText table names where_) := by
  have hf := makeSelect_filled buffer table names where_
  have hn : names.map cstr = names := by
    cases names with
    | none => rfl
    | some n => simp [cstr_of_not_mem n (hnames n rfl)]
  have hw : where_.map cstr = where_ := by
    cases where_ with
    | none => rfl
    | some w => simp [cstr_of_not_mem w (hwhere w rfl)]
  rw [cstr_of_not_mem table htable, hn, hw] at hf
  exact compiledText_filled buffer _ _ hf hbuf hfit
    (not_mem_selectText table names where_ htable hnames hwhere)

/-- Witness of C7: `makeSelect("T", nullptr, "X=12")` compiles
`SELECT * FROM T WHERE X=12;`. -/
theorem makeSelect_compiles_selectText_witness :
    compiledText (makeSelect (List.replicate 1024 'x') "T".toList none (some "X=12".toList))
      = some "SELECT * FROM T WHERE X=12;".toList :=
  makeSelect_compiles_selectText (List.replicate 1024 'x') "T".toList none
    (some "X=12".toList) (List.length_replicate _ _) (by decide) (by simp)
    (by intro w hw; cases hw; decide) (by decide)

/-- C8: for every live cursor (its `reader` is the one its constructor bound to
it) and every column index, `readText` and `readBlob` return, never the null
pointer: the address of the empty string literal when the engine accessor
yields the null pointer, and the engine's own pointer otherwise. -/
theorem readText_readBlob_never_null (E : Engine σ) (s : SQLite3Stmt σ) (c : Cursor)
    (col : Int) (hlive : c.operatorBool = true) (hreader : c.reader.cur = Ref.obj) :
    (∃ q s1, RowReader.readText E c.reader c col s = some (q, s1) ∧
      q ≠ CPtr.null ∧
      (E.column_text s.handle col = none → q = CPtr.literal "") ∧
      (∀ a, E.column_text s.handle col = some a → q = CPtr.engine a)) ∧
    (∃ q s1, RowReader.readBlob E c.reader c col s = some (q, s1) ∧
      q ≠ CPtr.null ∧
      (E.column_blob s.handle col = none → q = CPtr.literal "") ∧
      (∀ a, E.column_blob s.handle col = some a → q = CPtr.engine a)) := by
  have hc : c.stmt = Ref.obj := by
    cases h : c.stmt with
    | null => simp [Cursor.operatorBool, h] at hlive
    | obj => rfl
  constructor
  · refine ⟨_, _, by simp only [RowReader.readText, hreader, hc]; rfl, ?_, ?_, ?_⟩
    · cases E.column_text s.handle col <;> simp
    · intro h; simp [h]
    · intro a h; simp [h]
  · refine ⟨_, _, by simp only [RowReader.readBlob, hreader, hc]; rfl, ?_, ?_, ?_⟩
    · cases E.column_blob s.handle col <;> simp
    · intro h; simp [h]
    · intro a h; simp [h]

/-- Witness of C8: on a mock row whose column 0 is absent and whose column 1 is
at the engine address 4096, reading column 0 yields the empty literal and
reading column 1 yields the engine's pointer. -/
theorem readText_readBlob_never_null_witness :
    (∃ q s1, RowReader.readText mockEngine (SQLite3Stmt.begin mockStmtNullColumn).reader
        (SQLite3Stmt.begin mockStmtNullColumn) 0 mockStmtNullColumn = some (q, s1) ∧
      q = CPtr.literal "") ∧
    (∃ q s1, RowReader.readBlob mockEngine (SQLite3Stmt.begin mockStmtNullColumn).reader
        (SQLite3Stmt.begin mockStmtNullColumn) 1 mockStmtNullColumn = some (q, s1) ∧
      q = CPtr.engine 4096) := by
  constructor
  · obtain ⟨q, s1, h1, _, h3, _⟩ := (readText_readBlob_never_null mockEngine mockStmtNullColumn
      (SQLite3Stmt.begin mockStmtNullColumn) 0 rfl rfl).1
    exact ⟨q, s1, h1, h3 rfl⟩
  · obtain ⟨q, s1, h1, _, _, h4⟩ := (readText_readBlob_never_null mockEngine mockStmtNullColumn
      (SQLite3Stmt.begin mockStmtNullColumn) 1 rfl rfl).2
    exact ⟨q, s1, h1, h4 4096 rfl⟩

/-- C9, evaluated on the code: the reader of the `end` cursor reports size 0
and leaves the journal alone; but on the mock statement with one row, once the
cursor taken by `begin` has been advanced past that row and released, its
reader still converts to true (`cur` was not cleared) and `size` goes on to
dereference `cur->stmt`, which is null. -/
theorem size_after_release_is_undefined :
    RowReader.size mockEngine (SQLite3Stmt.end_ mockStmtAtRow).reader
        (SQLite3Stmt.end_ mockStmtAtRow) mockStmtAtRow = some (0, mockStmtAtRow) ∧
    ∃ c1 s1, (SQLite3Stmt.begin mockStmtAtRow).operatorInc mockEngine mockStmtAtRow
        = some (Except.ok (), c1, s1) ∧
      c1.operatorBool = false ∧
      c1.reader.operatorBool = true ∧
      RowReader.size mockEngine c1.reader c1 s1 = none := by
  refine ⟨rfl, { Cursor.ofStmt with stmt := Ref.null },
    SQLite3Stmt.reset mockEngine (stepped mockEngine 1 mockStmtAtRow), ?_, rfl, rfl, rfl⟩
  have h := inc_done mockEngine mockStmtAtRow rfl (by decide)
  rw [stepped_one]
  exact h

/-- C10 fails on the code as it is stated for every input: with a table name of
1024 characters `makeUpdate` stores past the end of the scratch buffer, and no
statement text is defined. -/
theorem makeUpdate_overflows :
    compiledText (makeUpdate (List.replicate 1024 'x') (List.replicate 1024 'T') []
        "X=12".toList) = none ∧
    compiledText (makeUpdate (List.replicate 1024 'x') (List.replicate 1024 'T') []
        "X=12".toList)
      ≠ some (updateText (List.replicate 1024 'T') [] "X=12".toList) := by
  have hnone : compiledText (makeUpdate (List.replicate 1024 'x') (List.replicate 1024 'T') []
      "X=12".toList) = none := by
    refine compiledText_overflow _ _ _ (makeUpdate_filled _ _ _ _) ?_
    have hT : cstr (List.replicate 1024 'T') = List.replicate 1024 'T' := by
      apply cstr_of_not_mem
      intro hm
      exact absurd (List.eq_of_mem_replicate hm) (by decide)
    rw [hT]
    simp only [updateText, List.length_append, List.length_replicate, List.length_singleton,
      bufsize]
    omega
  exact ⟨hnone, by rw [hnone]; exact fun h => Option.noConfusion h⟩

/-- C10 as amended: for a table name, name/value pairs and a where fragment
that are C strings (no NUL inside) and whose assembled text with its terminator
fits the scratch buffer, the text that `makeUpdate` compiles is exactly
`"UPDATE " ++ table ++ " SET " ++ name1 ++ "=" ++ value1 ++ ... ++ " WHERE " ++
where ++ ";"`, the assignments following each other with nothing in between. -/
theorem makeUpdate_compiles_updateText (buffer table : List Char)
    (name_vals : List (List Char × List Char)) (where_ : List Char)
    (hbuf : buffer.length = bufsize)
    (htable : NUL ∉ table)
    (hpairs : ∀ nv ∈ name_vals, NUL ∉ nv.1 ∧ NUL ∉ nv.2)
    (hwhere : NUL ∉ where_)
    (hfit : (updateText table name_vals where_).length + 1 ≤ bufsize) :
    compiledText (makeUpdate buffer table name_vals where_)
      = some (updateText table name_vals where_) := by
  have hf := makeUpdate_filled buffer table name_vals where_
  rw [cstr_of_not_mem table htable, cstr_of_not_mem where_ hwhere,
    map_cstr_of_not_mem name_vals hpairs] at hf
  exact compiledText_filled buffer _ _ hf hbuf hfit
    (not_mem_updateText table name_vals where_ htable hpairs hwhere)

/-- Witness of C10: two assignments, `A=1` and `B=2`, end up as `A=1B=2`. -/
theorem makeUpdate_compiles_updateText_witness :
    compiledText (makeUpdate (List.replicate 1024 'x') "T".toList
        [("A".toList, "1".toList), ("B".toList, "2".toList)] "X=12".toList)
      = some "UPDATE T SET A=1B=2 WHERE X=12;".toList :=
  makeUpdate_compiles_updateText (List.replicate 1024 'x') "T".toList
    [("A".toList, "1".toList), ("B".toList, "2".toList)] "X=12".toList
    (List.length_replicate _ _) (by decide) (by decide) (by decide) (by decide)

/-- C11: `makeSelect` checks no bound.  It stores exactly `L + 1` bytes, at the
offsets `0, 1, ..., L` from the start of the scratch buffer in this order,
where `L` is the length of the assembled statement text (of the C strings at
its arguments) with its `;`, the last byte being the NUL; so every store lies
inside the `bufsize = 1024` bytes of the buffer exactly when `L ≤ 1023`, and
with a table name of 1024 characters some store lies past the end. -/
theorem makeSelect_stores_unchecked (buffer table : List Char)
    (names where_ : Option (List Char)) :
    (makeSelect buffer table names where_).stores =
      List.range ((selectText (cstr table) (names.map cstr) (where_.map cstr)).length + 1) ∧
    ((makeSelect buffer table names where_).stores.all (fun off => decide (off < bufsize))
        = true ↔
      (selectText (cstr table) (names.map cstr) (where_.map cstr)).length ≤ 1023) ∧
    (compiledText (makeSelect buffer table names where_) = none ↔
      1023 < (selectText (cstr table) (names.map cstr) (where_.map cstr)).length) ∧
    (∃ off, off ∈ (makeSelect buffer (List.replicate 1024 'T') none none).stores ∧
      bufsize ≤ off) := by
  have hst : ∀ (tb : List Char) (ns wh : Option (List Char)),
      (makeSelect buffer tb ns wh).stores =
        List.range ((selectText (cstr tb) (ns.map cstr) (wh.map cstr)).length + 1) := by
    intro tb ns wh
    have h := (makeSelect_filled buffer tb ns wh).1
    rw [h, List.length_append, List.length_singleton]
  have hall : ((makeSelect buffer table names where_).stores.all
        (fun off => decide (off < bufsize)) = true ↔
      (selectText (cstr table) (names.map cstr) (where_.map cstr)).length ≤ 1023) := by
    rw [hst, List.all_eq_true]
    constructor
    · intro h
      have := h _ (List.mem_range.mpr (Nat.lt_succ_self _))
      simp only [decide_eq_true_eq, bufsize] at this
      omega
    · intro h off hoff
      have := List.mem_range.mp hoff
      exact decide_eq_true (by simp only [bufsize]; omega)
  refine ⟨hst table names where_, hall, ?_, ?_⟩
  · unfold compiledText
    constructor
    · intro h
      by_contra hle
      rw [if_pos (hall.mpr (by omega))] at h
      exact Option.noConfusion h
    · intro h
      rw [if_neg]
      intro hc
      have := hall.mp hc
      omega
  · refine ⟨bufsize, ?_, le_refl _⟩
    rw [hst, List.mem_range]
    have hT : cstr (List.replicate 1024 'T') = List.replicate 1024 'T' := by
      apply cstr_of_not_mem
      intro hm
      exact absurd (List.eq_of_mem_replicate hm) (by decide)
    rw [hT]
    simp only [selectText, List.length_append, List.length_replicate, bufsize]
    omega

end hgl
